import Mathlib

/-!
Verification of the offline-first synchronization engine of the
`shelf-serpent-desktop` library-management application.

The Rust sources under `src/src-tauri/src/sync/` are shallowly embedded:

* `traits.rs`     — the sync data model (`SyncMetadata`, `SyncOperation`,
  `SyncConflict`, `SyncSummary`, `SyncStatus`, strategy/error enums);
* `conflict.rs`   — `DefaultConflictResolver` (`resolve`, `merge_values`,
  `merge_field`);
* `local/sqlite.rs` — `SqliteLocalDataStore` (`get_changes`,
  `apply_changes`, `get_last_sync_time`, `set_last_sync_time`) over an
  explicit model of the SQLite state it manipulates;
* `strategy.rs`   — `TwoWaySyncStrategy` and `IncrementalSyncStrategy`,
  parameterised over the `LocalDataStore` / `RemoteDataSource` trait
  interfaces exactly as the Rust code is;
* `engine.rs`     — `SyncEngine` status handling (`sync_table`,
  `sync_all_tables`, `trigger_data_pull`), with the network and the
  per-table strategies abstracted as an environment, mirroring the
  `dyn`-trait dispatch of the source.

Modelling conventions:

* `chrono::DateTime<Utc>` timestamps are modelled as `Int` (a totally
  ordered clock); `Utc::now()` reads become explicit parameters.
* `serde_json::Value` is the inductive `JValue`; object key order follows
  first occurrence (serde's map has unique keys, and no theorem below
  depends on iteration order of the source's `HashSet` key sets).
* Fallible Rust functions returning `SyncResult<T>` become
  `Except SyncError T`.
-/

/-- Model of `chrono::DateTime<Utc>`: an integer clock with the usual
total order.  Comparisons in the source (`>`, `>=`) map to `Int` order. -/
abbrev Timestamp := Int

/-- `serde_json::Value`.  Numbers are modelled as integers (no claim
depends on float payloads); objects are association lists with the
unique-key discipline of serde's map. -/
inductive JValue where
  | null
  | bool (b : Bool)
  | num (n : Int)
  | str (s : String)
  | arr (elems : List JValue)
  | obj (fields : List (String × JValue))
deriving Repr

mutual

/-- Decidable structural equality on `JValue` (Rust's derived `PartialEq`
on `serde_json::Value`). -/
def JValue.decEq : (a b : JValue) → Decidable (a = b)
  | .null, .null => .isTrue rfl
  | .bool a, .bool b =>
      if h : a = b then .isTrue (by rw [h]) else .isFalse (by simp [h])
  | .num a, .num b =>
      if h : a = b then .isTrue (by rw [h]) else .isFalse (by simp [h])
  | .str a, .str b =>
      if h : a = b then .isTrue (by rw [h]) else .isFalse (by simp [h])
  | .arr xs, .arr ys =>
      match JValue.decEqArr xs ys with
      | .isTrue h => .isTrue (by rw [h])
      | .isFalse h => .isFalse (by simp [h])
  | .obj xs, .obj ys =>
      match JValue.decEqObj xs ys with
      | .isTrue h => .isTrue (by rw [h])
      | .isFalse h => .isFalse (by simp [h])
  | .null, .bool _ => .isFalse (fun h => JValue.noConfusion h)
  | .null, .num _ => .isFalse (fun h => JValue.noConfusion h)
  | .null, .str _ => .isFalse (fun h => JValue.noConfusion h)
  | .null, .arr _ => .isFalse (fun h => JValue.noConfusion h)
  | .null, .obj _ => .isFalse (fun h => JValue.noConfusion h)
  | .bool _, .null => .isFalse (fun h => JValue.noConfusion h)
  | .bool _, .num _ => .isFalse (fun h => JValue.noConfusion h)
  | .bool _, .str _ => .isFalse (fun h => JValue.noConfusion h)
  | .bool _, .arr _ => .isFalse (fun h => JValue.noConfusion h)
  | .bool _, .obj _ => .isFalse (fun h => JValue.noConfusion h)
  | .num _, .null => .isFalse (fun h => JValue.noConfusion h)
  | .num _, .bool _ => .isFalse (fun h => JValue.noConfusion h)
  | .num _, .str _ => .isFalse (fun h => JValue.noConfusion h)
  | .num _, .arr _ => .isFalse (fun h => JValue.noConfusion h)
  | .num _, .obj _ => .isFalse (fun h => JValue.noConfusion h)
  | .str _, .null => .isFalse (fun h => JValue.noConfusion h)
  | .str _, .bool _ => .isFalse (fun h => JValue.noConfusion h)
  | .str _, .num _ => .isFalse (fun h => JValue.noConfusion h)
  | .str _, .arr _ => .isFalse (fun h => JValue.noConfusion h)
  | .str _, .obj _ => .isFalse (fun h => JValue.noConfusion h)
  | .arr _, .null => .isFalse (fun h => JValue.noConfusion h)
  | .arr _, .bool _ => .isFalse (fun h => JValue.noConfusion h)
  | .arr _, .num _ => .isFalse (fun h => JValue.noConfusion h)
  | .arr _, .str _ => .isFalse (fun h => JValue.noConfusion h)
  | .arr _, .obj _ => .isFalse (fun h => JValue.noConfusion h)
  | .obj _, .null => .isFalse (fun h => JValue.noConfusion h)
  | .obj _, .bool _ => .isFalse (fun h => JValue.noConfusion h)
  | .obj _, .num _ => .isFalse (fun h => JValue.noConfusion h)
  | .obj _, .str _ => .isFalse (fun h => JValue.noConfusion h)
  | .obj _, .arr _ => .isFalse (fun h => JValue.noConfusion h)

/-- Decidable equality of JSON array element lists. -/
def JValue.decEqArr : (xs ys : List JValue) → Decidable (xs = ys)
  | [], [] => .isTrue rfl
  | [], _ :: _ => .isFalse (fun h => List.noConfusion h)
  | _ :: _, [] => .isFalse (fun h => List.noConfusion h)
  | x :: xs, y :: ys =>
      match JValue.decEq x y, JValue.decEqArr xs ys with
      | .isTrue h1, .isTrue h2 => .isTrue (by rw [h1, h2])
      | .isFalse h1, _ => .isFalse (by simp [h1])
      | _, .isFalse h2 => .isFalse (by simp [h2])

/-- Decidable equality of JSON object field lists. -/
def JValue.decEqObj : (xs ys : List (String × JValue)) → Decidable (xs = ys)
  | [], [] => .isTrue rfl
  | [], _ :: _ => .isFalse (fun h => List.noConfusion h)
  | _ :: _, [] => .isFalse (fun h => List.noConfusion h)
  | (k, v) :: xs, (k2, v2) :: ys =>
      if hk : k = k2 then
        match JValue.decEq v v2, JValue.decEqObj xs ys with
        | .isTrue h1, .isTrue h2 => .isTrue (by rw [hk, h1, h2])
        | .isFalse h1, _ => .isFalse (by simp [h1])
        | _, .isFalse h2 => .isFalse (by simp [h2])
      else .isFalse (by simp [hk])

end

instance : DecidableEq JValue := JValue.decEq

/-- `Map::get` on a JSON object's field list (first matching key). -/
def lookupField : List (String × JValue) → String → Option JValue
  | [], _ => none
  | (k, v) :: rest, key => if k = key then some v else lookupField rest key

/-- `Value::as_object()`. -/
def JValue.asObject : JValue → Option (List (String × JValue))
  | .obj fields => some fields
  | _ => none

/-- `Value::is_null()`. -/
def JValue.isNull : JValue → Bool
  | .null => true
  | _ => false

/-- `Value::as_array()`. -/
def JValue.asArray : JValue → Option (List JValue)
  | .arr elems => some elems
  | _ => none

/-- `SyncMetadata` from `traits.rs`. -/
structure SyncMetadata where
  id : String
  created_at : Timestamp
  updated_at : Timestamp
  deleted_at : Option Timestamp
  version : Int
deriving Repr, DecidableEq

/-- `SyncOperation` from `traits.rs`. -/
inductive SyncOperation where
  | create (data : JValue) (metadata : SyncMetadata)
  | update (data : JValue) (metadata : SyncMetadata)
  | delete (id : String) (metadata : SyncMetadata)
deriving Repr, DecidableEq

/-- `SyncConflict` from `traits.rs`.  The Rust fields are named `local`
and `remote`; `local` is a Lean keyword, so the data fields carry a
`_data` suffix here. -/
structure SyncConflict where
  local_data : JValue
  remote_data : JValue
  local_metadata : SyncMetadata
  remote_metadata : SyncMetadata
deriving Repr, DecidableEq

/-- `ConflictResolutionStrategy` from `traits.rs`. -/
inductive ConflictResolutionStrategy where
  | localWins
  | remoteWins
  | newestWins
  | merge
  | manual
deriving Repr, DecidableEq

/-- `SyncError` from `error.rs`.  Variants built from foreign error types
carry their rendered message. -/
inductive SyncError where
  | network (msg : String)
  | database (msg : String)
  | serialization (msg : String)
  | auth (msg : String)
  | conflict (msg : String)
  | invalidData (msg : String)
  | rateLimit
  | timeout
  | syncInProgress
  | config (msg : String)
deriving Repr, DecidableEq

/-- The `thiserror`-derived `Display` strings of `SyncError`
(`e.to_string()` in the source). -/
def SyncError.toString : SyncError → String
  | .network m => "Network error: " ++ m
  | .database m => "Database error: " ++ m
  | .serialization m => "Serialization error: " ++ m
  | .auth m => "Authentication error: " ++ m
  | .conflict m => "Conflict resolution failed: " ++ m
  | .invalidData m => "Invalid data: " ++ m
  | .rateLimit => "Rate limit exceeded"
  | SyncError.timeout => "Operation timeout"
  | .syncInProgress => "Sync already in progress"
  | .config m => "Configuration error: " ++ m

/-- `SyncResult<T>` from `error.rs`. -/
abbrev SyncResult (α : Type) := Except SyncError α

instance {ε α : Type} [DecidableEq ε] [DecidableEq α] : DecidableEq (Except ε α) :=
  fun x y =>
    match x, y with
    | .ok a, .ok b => decidable_of_iff (a = b) (by simp)
    | .error a, .error b => decidable_of_iff (a = b) (by simp)
    | .ok _, .error _ => isFalse (by simp)
    | .error _, .ok _ => isFalse (by simp)

/-- `SyncSummary` from `traits.rs`. -/
structure SyncSummary where
  table_name : String
  remote_changes : Nat
  local_changes : Nat
  conflicts : Nat
  resolved : Nat
  errors : List String
  sync_duration_ms : Nat
deriving Repr, DecidableEq

/-- `SyncStatus` from `traits.rs`. -/
structure SyncStatus where
  is_online : Bool
  is_syncing : Bool
  last_sync : Option Timestamp
  last_error : Option String
  database_initialized : Bool
  initial_sync_completed : Bool
deriving Repr, DecidableEq

/-! ## Conflict resolver (`conflict.rs`) -/

/-- First-occurrence deduplication with an accumulator of already-seen
elements.  Models both the `HashSet`-based key collection of
`merge_values` (insertion order of a `HashSet` is unspecified in Rust;
the model fixes first-occurrence order, and no theorem below depends on
it) and the `seen.insert(v.to_string())` array deduplication of
`merge_field` (JSON serialization is injective on values, so
deduplication by serialized string equals deduplication by value
equality). -/
def dedupFirst {α : Type} [DecidableEq α] : List α → List α → List α
  | [], _ => []
  | x :: rest, seen =>
      if x ∈ seen then dedupFirst rest seen else x :: dedupFirst rest (x :: seen)

mutual

/-- `DefaultConflictResolver::merge_field` (conflict.rs lines 79-142):
equal values kept; a null side loses to the other; arrays are
concatenated (local then remote) and deduplicated by first occurrence;
objects are merged recursively per key; any other mismatch falls back to
the timestamp rule `if remote_meta.updated_at > local_meta.updated_at
then remote else local`.  The source wraps the result in `Ok`; no branch
can error, so the model returns the value directly. -/
def merge_field : JValue → JValue → SyncMetadata → SyncMetadata → JValue
  | lv, rv, lm, rm =>
    if lv = rv then lv
    else if lv.isNull then rv
    else if rv.isNull then lv
    else
      match lv, rv with
      | .arr la, .arr ra => .arr (dedupFirst (la ++ ra) [])
      | .obj lo, .obj ro =>
          .obj (mergeFieldEntries lo ro lm rm
            ++ ro.filter (fun p => (lookupField lo p.1).isNone))
      | lv, rv => if rm.updated_at > lm.updated_at then rv else lv

/-- The object branch of `merge_field` (conflict.rs lines 115-134): the
source iterates `local_obj.keys().chain(remote_obj.keys())` assigning
into a key-unique map, so each local key yields one entry (merged when
the key is also remote) and the remaining remote-only keys follow; a key
present on both sides is visited twice by the chain but the second
assignment recomputes the identical value. -/
def mergeFieldEntries :
    List (String × JValue) → List (String × JValue) → SyncMetadata → SyncMetadata →
      List (String × JValue)
  | [], _, _, _ => []
  | (k, lv) :: rest, ro, lm, rm =>
      match lookupField ro k with
      | some rv => (k, merge_field lv rv lm rm) :: mergeFieldEntries rest ro lm rm
      | none => (k, lv) :: mergeFieldEntries rest ro lm rm

end

/-- `DefaultConflictResolver::merge_values` (conflict.rs lines 37-77):
requires both sides to be JSON objects, collects the set of all keys,
and resolves each key from the side(s) holding it, delegating to
`merge_field` when both do. -/
def merge_values (c : SyncConflict) : SyncResult JValue :=
  match c.local_data.asObject with
  | none => .error (.invalidData "Local data must be an object")
  | some lo =>
    match c.remote_data.asObject with
    | none => .error (.invalidData "Remote data must be an object")
    | some ro =>
      let all_keys := dedupFirst (lo.map Prod.fst ++ ro.map Prod.fst) []
      .ok (.obj (all_keys.filterMap (fun k =>
        match lookupField lo k, lookupField ro k with
        | some lv, some rv => some (k, merge_field lv rv c.local_metadata c.remote_metadata)
        | some lv, none => some (k, lv)
        | none, some rv => some (k, rv)
        | none, none => none)))

/-- `DefaultConflictResolver::resolve` (conflict.rs lines 13-33). -/
def DefaultConflictResolver.resolve (c : SyncConflict)
    (strategy : ConflictResolutionStrategy) : SyncResult JValue :=
  match strategy with
  | .localWins => .ok c.local_data
  | .remoteWins => .ok c.remote_data
  | .newestWins =>
      if c.local_metadata.updated_at > c.remote_metadata.updated_at then
        .ok c.local_data
      else
        .ok c.remote_data
  | .merge => merge_values c
  | .manual => .error (.conflict "Manual resolution required")

/-! ## Local data store model (`local/sqlite.rs` over the schema of
`database.rs`) -/

/-- A value stored in (or bound to) a SQLite column.

* `str` — a plain TEXT bind of a Rust `String` (e.g. `metadata.id`);
* `time` — a DATETIME bind of a `chrono` timestamp (sqlx stores RFC3339
  text whose lexicographic order is chronological);
* `json` — a bind of `value.to_string()`, i.e. the JSON serialization of
  a `serde_json::Value`.  Serialization is injective, so the model keeps
  the value itself; a serialized JSON string carries its quotes, so it
  never equals the plain TEXT bind of the same characters (record ids in
  this repository are UUID strings, whose serialized and plain forms
  always differ);
* `null` — SQL NULL. -/
inductive SqlVal where
  | str (s : String)
  | time (t : Timestamp)
  | json (v : JValue)
  | null
deriving Repr, DecidableEq

/-- One row of a domain table: column values in schema order. -/
abbrev Row := List SqlVal

/-- One domain table.  Every domain table created by `database.rs`
declares `id TEXT PRIMARY KEY`, so the model enforces uniqueness of the
non-NULL `id` column on insert. -/
structure Table where
  schema : List String
  rows : List Row
deriving Repr, DecidableEq

/-- One row of the shared `sync_metadata` table created by
`ensure_sync_table_exists` (sqlite.rs lines 20-39), with the declared
defaults `local_version 1`, `remote_version 1`, `is_deleted FALSE`. -/
structure MetaRow where
  table_name : String
  record_id : String
  last_sync_at : Option Timestamp
  local_version : Int
  remote_version : Int
  is_deleted : Bool
deriving Repr, DecidableEq

/-- The SQLite database state visible to `SqliteLocalDataStore`: the
domain tables plus the shared `sync_metadata` table. -/
structure StoreState where
  tables : List (String × Table)
  sync_metadata : List MetaRow
deriving Repr, DecidableEq

/-- Association-list lookup (first matching key). -/
def lookupAssoc {β : Type} : List (String × β) → String → Option β
  | [], _ => none
  | (k, v) :: rest, key => if k = key then some v else lookupAssoc rest key

/-- Replace the value stored under a key (first occurrence). -/
def setAssoc {β : Type} : List (String × β) → String → β → List (String × β)
  | [], _, _ => []
  | (k, v) :: rest, key, b =>
      if k = key then (k, b) :: rest else (k, v) :: setAssoc rest key b

/-- Index of a column name in a schema. -/
def colIdx : List String → String → Option Nat
  | [], _ => none
  | c :: rest, name => if c = name then some 0 else (colIdx rest name).map (· + 1)

/-- `INSERT INTO {table} ({columns}) VALUES (...)` (sqlite.rs lines
144-170): the bound columns are exactly the keys of the operation's
`data` object, each bound as `value.to_string()`; unmentioned schema
columns take SQL NULL.  An unknown column is a SQL error, and a
duplicate non-NULL `id` violates the `TEXT PRIMARY KEY` of every domain
table. -/
def insertRow (table_name : String) (t : Table) (data : List (String × JValue)) :
    SyncResult Table :=
  let cols := data.map Prod.fst
  if cols.all (fun c => t.schema.contains c) then
    let row : Row := t.schema.map (fun c =>
      if cols.contains c then
        match lookupField data c with
        | some v => SqlVal.json v
        | none => SqlVal.null
      else SqlVal.null)
    match colIdx t.schema "id" with
    | some i =>
        if t.rows.any (fun r =>
            match r.get? i, row.get? i with
            | some v1, some v2 => decide (v1 = v2) && !(decide (v1 = SqlVal.null))
            | _, _ => false) then
          .error (.database ("UNIQUE constraint failed: " ++ table_name ++ ".id"))
        else
          .ok { t with rows := t.rows ++ [row] }
    | none => .ok { t with rows := t.rows ++ [row] }
  else .error (.database ("table " ++ table_name ++ " has no such column"))

/-- The `SET c1 = ?, c2 = ?, ...` part of the UPDATE statement (sqlite.rs
lines 200-215): assign each bound column its `value.to_string()`. -/
def updateRowCols (schema : List String) (cols : List String)
    (data : List (String × JValue)) (r : Row) : Row :=
  cols.foldl (fun acc c =>
    match colIdx schema c, lookupField data c with
    | some i, some v => acc.set i (SqlVal.json v)
    | _, _ => acc) r

/-- One `SyncOperation` replayed by `SqliteLocalDataStore::apply_changes`
(sqlite.rs lines 139-260): `Create` is a plain INSERT plus an
`INSERT OR REPLACE` of the record's `sync_metadata` row; `Update` is an
in-place `UPDATE ... WHERE id = ?` of the data columns (the `id` key is
filtered out) plus an in-place UPDATE of the metadata row; `Delete` is a
soft delete (`SET deleted_at = ? WHERE id = ?`) plus an in-place UPDATE
of the metadata row.  Each statement runs directly against the pool —
there is no enclosing transaction. -/
def applyOne (st : StoreState) (table_name : String) (op : SyncOperation) :
    SyncResult StoreState :=
  match op with
  | .create data metadata =>
    match data.asObject with
    | none => .error (.invalidData "Invalid data format")
    | some fields =>
      match lookupAssoc st.tables table_name with
      | none => .error (.database ("no such table: " ++ table_name))
      | some t =>
        match insertRow table_name t fields with
        | .error e => .error e
        | .ok t' =>
          let meta' := (st.sync_metadata.filter (fun m =>
              !(m.table_name == table_name && m.record_id == metadata.id)))
            ++ [{ table_name := table_name, record_id := metadata.id,
                  last_sync_at := some metadata.updated_at,
                  local_version := metadata.version,
                  remote_version := metadata.version,
                  is_deleted := false }]
          .ok { tables := setAssoc st.tables table_name t', sync_metadata := meta' }
  | .update data metadata =>
    match data.asObject with
    | none => .error (.invalidData "Invalid data format")
    | some fields =>
      let cols := (fields.map Prod.fst).filter (fun k => !(k == "id"))
      match lookupAssoc st.tables table_name with
      | none => .error (.database ("no such table: " ++ table_name))
      | some t =>
        if cols.all (fun c => t.schema.contains c) then
          match colIdx t.schema "id" with
          | none => .error (.database ("table " ++ table_name ++ " has no column id"))
          | some i =>
            let t' := { t with rows := t.rows.map (fun r =>
              if r.get? i = some (SqlVal.str metadata.id) then
                updateRowCols t.schema cols fields r
              else r) }
            let meta' := st.sync_metadata.map (fun m =>
              if m.table_name = table_name ∧ m.record_id = metadata.id then
                { m with last_sync_at := some metadata.updated_at,
                         remote_version := metadata.version }
              else m)
            .ok { tables := setAssoc st.tables table_name t', sync_metadata := meta' }
        else .error (.database ("table " ++ table_name ++ " has no such column"))
  | .delete id metadata =>
    match lookupAssoc st.tables table_name with
    | none => .error (.database ("no such table: " ++ table_name))
    | some t =>
      match colIdx t.schema "deleted_at", colIdx t.schema "id" with
      | some di, some i =>
        let dv := match metadata.deleted_at with
          | some ts => SqlVal.time ts
          | none => SqlVal.null
        let t' := { t with rows := t.rows.map (fun r =>
          if r.get? i = some (SqlVal.str id) then r.set di dv else r) }
        let meta' := st.sync_metadata.map (fun m =>
          if m.table_name = table_name ∧ m.record_id = id then
            { m with last_sync_at := metadata.deleted_at, is_deleted := true }
          else m)
        .ok { tables := setAssoc st.tables table_name t', sync_metadata := meta' }
      | _, _ => .error (.database ("table " ++ table_name ++ " has no such column"))

/-- `SqliteLocalDataStore::apply_changes` (sqlite.rs lines 132-264):
replays the operations in order; the first failing statement aborts the
remainder of the batch (the `?` operator), leaving the effects of the
already-executed statements in place. -/
def SqliteLocalDataStore.apply_changes (st : StoreState) (table_name : String) :
    List SyncOperation → SyncResult StoreState
  | [] => .ok st
  | op :: rest =>
      match applyOne st table_name op with
      | .error e => .error e
      | .ok st' => SqliteLocalDataStore.apply_changes st' table_name rest

/-- SQL `MAX` over a DATETIME column: NULLs are ignored; the result is
NULL only when no non-NULL value exists. -/
def optMaxTime : Option Timestamp → Option Timestamp → Option Timestamp
  | none, b => b
  | some a, none => some a
  | some a, some b => some (max a b)

/-- `SqliteLocalDataStore::get_last_sync_time` (sqlite.rs lines 266-283):
`SELECT MAX(last_sync_at) FROM sync_metadata WHERE table_name = ?` —
the maximum ranges over every metadata row of the table, the
`'_sync_marker_'` row and the per-record rows alike.  The RFC3339
re-parse of the maximum always succeeds on values this store wrote, so
the model returns the maximum directly. -/
def SqliteLocalDataStore.get_last_sync_time (st : StoreState) (table_name : String) :
    SyncResult (Option Timestamp) :=
  .ok ((st.sync_metadata.filter (fun m => m.table_name == table_name)).foldl
    (fun acc m => optMaxTime acc m.last_sync_at) none)

/-- `SqliteLocalDataStore::set_last_sync_time` (sqlite.rs lines 285-305):
`INSERT OR REPLACE INTO sync_metadata (table_name, record_id,
last_sync_at) VALUES (?, '_sync_marker_', ?)`; the unspecified columns
take the schema defaults. -/
def SqliteLocalDataStore.set_last_sync_time (st : StoreState) (table_name : String)
    (time : Timestamp) : SyncResult StoreState :=
  .ok { st with sync_metadata :=
    (st.sync_metadata.filter (fun m =>
        !(m.table_name == table_name && m.record_id == "_sync_marker_")))
      ++ [{ table_name := table_name, record_id := "_sync_marker_",
            last_sync_at := some time, local_version := 1, remote_version := 1,
            is_deleted := false }] }

/-- Decode a stored column value back to the JSON value the sqlx row
mapper hands to `get_changes` (`t.*` decoded as one structured record):
JSON-typed columns yield their value, TEXT yields a JSON string,
DATETIME yields the model timestamp, NULL yields JSON null. -/
def SqlVal.toJson : SqlVal → JValue
  | .str s => .str s
  | .time t => .num t
  | .json v => v
  | SqlVal.null => JValue.null

/-- A row decoded as a JSON object in schema order. -/
def rowToJson (schema : List String) (r : Row) : JValue :=
  .obj ((schema.zip r).map (fun p => (p.1, SqlVal.toJson p.2)))

/-- `data["key"]`: JSON index, `Null` when absent or not an object. -/
def jsonGet (v : JValue) (key : String) : JValue :=
  match v.asObject with
  | some fields => (lookupField fields key).getD JValue.null
  | none => JValue.null

/-- `Value::as_str()`. -/
def JValue.asStr : JValue → Option String
  | .str s => some s
  | _ => none

/-- `data[key].as_str().and_then(parse_from_rfc3339).unwrap_or(now)`
(sqlite.rs lines 96-106).  RFC3339 text is modelled as the decimal
rendering of the integer timestamp, so parsing is `String.toInt?`. -/
def timeField (data : JValue) (key : String) (now : Timestamp) : Timestamp :=
  (((jsonGet data key).asStr).bind (fun s => s.toInt?)).getD now

/-- `last_sync_at` comparison used to model `ORDER BY sm.last_sync_at
ASC` (SQL sorts NULLs first in ascending order). -/
def timeLE : Option Timestamp → Option Timestamp → Bool
  | none, _ => true
  | some _, none => false
  | some a, some b => a ≤ b

/-- Insertion into a list sorted by `last_sync_at`. -/
def insertByTime (m : MetaRow) : List MetaRow → List MetaRow
  | [] => [m]
  | x :: xs =>
      if timeLE m.last_sync_at x.last_sync_at then m :: x :: xs
      else x :: insertByTime m xs

/-- Insertion sort by `last_sync_at` (SQL leaves the relative order of
equal keys unspecified; no theorem below depends on it). -/
def sortByTime : List MetaRow → List MetaRow
  | [] => []
  | x :: xs => insertByTime x (sortByTime xs)

/-- `SqliteLocalDataStore::get_changes` (sqlite.rs lines 44-130): joins
`sync_metadata` with the domain table on `t.id = sm.record_id`, keeping
metadata rows of this table with `last_sync_at > since` (when `since` is
given) or `local_version > remote_version` (when it is not), ordered by
`last_sync_at`; each joined row is classified as `Delete` when
`is_deleted`, `Create` when `remote_version == 0`, else `Update`, with
per-record `SyncMetadata` rebuilt from the row's `created_at` /
`updated_at` fields (falling back to `now`, the source's `Utc::now()`),
`deleted_at := now` for deleted rows, and `version := local_version`. -/
def SqliteLocalDataStore.get_changes (st : StoreState) (table_name : String)
    (since : Option Timestamp) (now : Timestamp) : SyncResult (List SyncOperation) :=
  match lookupAssoc st.tables table_name with
  | none => .error (.database ("no such table: " ++ table_name))
  | some t =>
    match colIdx t.schema "id" with
    | none => .error (.database ("table " ++ table_name ++ " has no column id"))
    | some i =>
      let metas := st.sync_metadata.filter (fun m =>
        m.table_name == table_name &&
          (match since with
           | some s =>
               match m.last_sync_at with
               | some ls => decide (ls > s)
               | none => false
           | none => decide (m.local_version > m.remote_version)))
      let joined := (sortByTime metas).flatMap (fun m =>
        (t.rows.filter (fun r => r.get? i == some (SqlVal.str m.record_id))).map
          (fun r => (m, r)))
      .ok (joined.map (fun p =>
        let data := rowToJson t.schema p.2
        let metadata : SyncMetadata := {
          id := p.1.record_id,
          created_at := timeField data "created_at" now,
          updated_at := timeField data "updated_at" now,
          deleted_at := if p.1.is_deleted then some now else none,
          version := p.1.local_version }
        if p.1.is_deleted then .delete p.1.record_id metadata
        else if p.1.remote_version = 0 then .create data metadata
        else .update data metadata))

/-! ## Sync strategies (`strategy.rs`) -/

/-- The `LocalDataStore` trait object a strategy receives (traits.rs
lines 64-84), in explicit state-passing style over a store state `σ`:
reads (`get_changes`, `get_last_sync_time`) leave the state unchanged,
mutations (`apply_changes`, `set_last_sync_time`) return the new state.
`get_changes` additionally receives the `Utc::now()` the store may read
internally for metadata fallbacks.  On an error the store's state is not
returned; the retry model re-calls against the state it had (the claims
settled below depend only on attempt counts and termination there). -/
structure LocalStore (σ : Type) where
  get_changes : σ → String → Option Timestamp → Timestamp → SyncResult (List SyncOperation)
  apply_changes : σ → String → List SyncOperation → SyncResult σ
  get_last_sync_time : σ → String → SyncResult (Option Timestamp)
  set_last_sync_time : σ → String → Timestamp → SyncResult σ

/-- The `RemoteDataSource` trait object (traits.rs lines 36-52):
`fetch_changes table since limit offset` reads; `push_changes` returns
the accepted metadata and the remote's next state. -/
structure RemoteSource (ρ : Type) where
  fetch_changes : ρ → String → Option Timestamp → Option Nat → Option Nat →
    SyncResult (List (JValue × SyncMetadata))
  push_changes : ρ → String → List SyncOperation → SyncResult (List SyncMetadata × ρ)

/-- Observable store/remote interactions of a strategy pass, recorded in
execution order. -/
inductive SyncEvent where
  | getLastSyncTime
  | getChanges
  | fetchChanges
  | applyChanges
  | pushChanges
  | setLastSyncTime
deriving Repr, DecidableEq

/-- The id extracted from a local change during conflict detection
(strategy.rs lines 56-60). -/
def SyncOperation.opId : SyncOperation → String
  | .create _ m => m.id
  | .update _ m => m.id
  | .delete id _ => id

/-- The remote-pull half of a Two-Way pass (strategy.rs lines 40-47):
when the fetched remote changes are non-empty, replay them locally as
`Update` operations and count them into `processed`.  Returns the new
local-store state, the number processed, and the events emitted. -/
def twoWayApplyRemote {σ : Type} (L : LocalStore σ) (table_name : String) (ls : σ)
    (remote_changes : List (JValue × SyncMetadata)) :
    SyncResult (σ × Nat × List SyncEvent) :=
  if remote_changes.isEmpty then .ok (ls, 0, [])
  else
    let operations := remote_changes.map (fun p => SyncOperation.update p.1 p.2)
    match L.apply_changes ls table_name operations with
    | .error e => .error e
    | .ok ls' => .ok (ls', operations.length, [SyncEvent.applyChanges])

/-- The local-push half of a Two-Way pass (strategy.rs lines 50-76): when
there are local changes, re-fetch the latest remote state at `nowRace`
to detect races, split the local changes into conflicting (a remote
change with the same id exists) and safe ones, and push the safe ones.
Returns the new remote state, the number pushed, the number of
conflicts, and the events emitted. -/
def twoWayPushLocal {ρ : Type} (R : RemoteSource ρ) (table_name : String)
    (nowRace : Timestamp) (rs : ρ) (local_changes : List SyncOperation) :
    SyncResult (ρ × Nat × Nat × List SyncEvent) :=
  if local_changes.isEmpty then .ok (rs, 0, 0, [])
  else
    match R.fetch_changes rs table_name (some nowRace) none none with
    | .error e => .error e
    | .ok latest_remote =>
      let part := local_changes.partition (fun lc =>
        latest_remote.any (fun q => q.2.id == lc.opId))
      let conflicts := part.1
      let safe := part.2
      if safe.isEmpty then
        .ok (rs, 0, conflicts.length, [SyncEvent.fetchChanges])
      else
        match R.push_changes rs table_name safe with
        | .error e => .error e
        | .ok (_, rs') =>
            .ok (rs', safe.length, conflicts.length,
              [SyncEvent.fetchChanges, SyncEvent.pushChanges])

/-- `TwoWaySyncStrategy::sync_table` (strategy.rs lines 21-91).
`nowRace` is the `Utc::now()` of the race-detection re-fetch (line 52,
also passed through to `get_changes`); `nowMark` is the `Utc::now()`
written as the watermark (line 79); `durationMs` is the measured wall
clock of the pass.  Returns, on success, the summary, the final local
and remote states, and the trace of store/remote interactions in
execution order. -/
def TwoWaySyncStrategy.sync_table {σ ρ : Type} (L : LocalStore σ) (R : RemoteSource ρ)
    (table_name : String) (nowRace nowMark : Timestamp) (durationMs : Nat)
    (ls : σ) (rs : ρ) :
    SyncResult (SyncSummary × σ × ρ × List SyncEvent) :=
  match L.get_last_sync_time ls table_name with
  | .error e => .error e
  | .ok last_sync =>
    match L.get_changes ls table_name last_sync nowRace with
    | .error e => .error e
    | .ok local_changes =>
      match R.fetch_changes rs table_name last_sync none none with
      | .error e => .error e
      | .ok remote_changes =>
        match twoWayApplyRemote L table_name ls remote_changes with
        | .error e => .error e
        | .ok (ls1, processed1, ev1) =>
          match twoWayPushLocal R table_name nowRace rs local_changes with
          | .error e => .error e
          | .ok (rs1, processed2, conflictCount, ev2) =>
            match L.set_last_sync_time ls1 table_name nowMark with
            | .error e => .error e
            | .ok ls2 =>
                .ok ({ table_name := table_name,
                       remote_changes := 0,
                       local_changes := processed1 + processed2,
                       conflicts := conflictCount,
                       resolved := 0,
                       errors := [],
                       sync_duration_ms := durationMs },
                     ls2, rs1,
                     [SyncEvent.getLastSyncTime, SyncEvent.getChanges,
                       SyncEvent.fetchChanges] ++ ev1 ++ ev2 ++
                       [SyncEvent.setLastSyncTime])

/-- The apply-with-retry inner loop of `IncrementalSyncStrategy`
(strategy.rs lines 202-219): attempt `apply_changes`; on failure with
retries remaining, sleep and re-attempt; once retries are exhausted the
last error is reported.  Returns the outcome and the number of
`apply_changes` attempts made. -/
def applyWithRetry {σ : Type} (L : LocalStore σ) (table_name : String)
    (ops : List SyncOperation) : Nat → σ → SyncResult σ × Nat
  | remaining, s =>
    match L.apply_changes s table_name ops with
    | .ok s' => (.ok s', 1)
    | .error e =>
      match remaining with
      | 0 => (.error e, 1)
      | r + 1 =>
          let p := applyWithRetry L table_name ops r s
          (p.1, p.2 + 1)

/-- The pagination loop of `IncrementalSyncStrategy::sync_table`
(strategy.rs lines 185-222): fetch a page at the current offset (a fetch
error aborts the pass via `?`), stop on an empty page, otherwise map the
page to `Create` operations, apply with retry (a final failure is pushed
onto `errors` and the loop continues), and advance the offset by
`batch_size`.  The Rust `loop` has no iteration bound; `fuel` makes the
model total, `none` meaning the loop is still running after `fuel`
iterations. -/
def IncrementalSyncStrategy.syncLoop {σ ρ : Type} (L : LocalStore σ) (R : RemoteSource ρ)
    (batch_size retry_count : Nat) (table_name : String) (last_sync : Option Timestamp) :
    Nat → Nat → σ → ρ → SyncSummary → Option (SyncResult (SyncSummary × σ))
  | 0, _, _, _, _ => none
  | fuel + 1, offset, s, r, acc =>
    match R.fetch_changes r table_name last_sync (some batch_size) (some offset) with
    | .error e => some (.error e)
    | .ok batch =>
      if batch.isEmpty then some (.ok (acc, s))
      else
        let operations := batch.map (fun p => SyncOperation.create p.1 p.2)
        let res := applyWithRetry L table_name operations retry_count s
        match res.1 with
        | .ok s' =>
            IncrementalSyncStrategy.syncLoop L R batch_size retry_count table_name
              last_sync fuel (offset + batch_size) s' r
              { acc with remote_changes := acc.remote_changes + operations.length }
        | .error e =>
            IncrementalSyncStrategy.syncLoop L R batch_size retry_count table_name
              last_sync fuel (offset + batch_size) s r
              { acc with errors := acc.errors ++ [e.toString] }

/-- `IncrementalSyncStrategy::sync_table` (strategy.rs lines 164-228):
read the watermark, then run the pagination loop from offset 0 with an
empty summary; `durationMs` fills the measured `sync_duration_ms`. -/
def IncrementalSyncStrategy.sync_table {σ ρ : Type} (L : LocalStore σ) (R : RemoteSource ρ)
    (batch_size retry_count : Nat) (table_name : String) (durationMs : Nat)
    (fuel : Nat) (s : σ) (r : ρ) : Option (SyncResult (SyncSummary × σ)) :=
  match L.get_last_sync_time s table_name with
  | .error e => some (.error e)
  | .ok last_sync =>
    match IncrementalSyncStrategy.syncLoop L R batch_size retry_count table_name
        last_sync fuel 0 s r
        { table_name := table_name, remote_changes := 0, local_changes := 0,
          conflicts := 0, resolved := 0, errors := [], sync_duration_ms := 0 } with
    | none => none
    | some (.error e) => some (.error e)
    | some (.ok (acc, s')) =>
        some (.ok ({ acc with sync_duration_ms := durationMs }, s'))

/-- Termination of a run of `IncrementalSyncStrategy::sync_table`: some
finite fuel suffices for the Rust loop to return. -/
def IncrementalSyncStrategy.terminatesOn {σ ρ : Type} (L : LocalStore σ)
    (R : RemoteSource ρ) (batch_size retry_count : Nat) (table_name : String)
    (durationMs : Nat) (s : σ) (r : ρ) : Prop :=
  ∃ fuel,
    IncrementalSyncStrategy.sync_table L R batch_size retry_count table_name
      durationMs fuel s r ≠ none

/-! ## Sync engine (`engine.rs`) -/

/-- The environment a `SyncEngine` call interacts with, abstracting the
`dyn`-dispatched collaborators exactly at the engine's call sites:
`connectivity` is what `remote.check_connectivity()` answers;
`strategyResult` is the outcome of `strategy.sync_table(..)` for a
table's registered strategy; `pullResult` is the outcome of
`trigger_data_pull`'s Supabase fetch-and-insert block (engine.rs lines
109-152), whose error renders to the contained message; `now` is the
`Utc::now()` the engine stamps into `status.last_sync`. -/
structure EngineEnv where
  connectivity : Bool
  strategyResult : String → SyncResult SyncSummary
  pullResult : Except String Unit
  now : Timestamp

/-- The engine state the modelled calls touch: the shared `SyncStatus`
and the set of registered strategy table names (the keys of the
`strategies` map; iteration order of the Rust `HashMap` is unspecified,
the model fixes registration order, and every per-table result below is
independent of it). -/
structure EngineState where
  status : SyncStatus
  registered : List String
deriving Repr, DecidableEq

/-- `Vec::join(", ")` on error strings. -/
def joinComma (l : List String) : String :=
  String.intercalate ", " l

/-- `SyncEngine::check_connectivity` (engine.rs lines 93-98): probe the
remote, store the answer in `status.is_online`, return it. -/
def SyncEngine.check_connectivity (env : EngineEnv) (st : EngineState) :
    Bool × EngineState :=
  (env.connectivity,
    { st with status := { st.status with is_online := env.connectivity } })

/-- `SyncEngine::perform_table_sync` (engine.rs lines 467-488): check
connectivity (offline is an `InvalidData` error), look up the table's
strategy (`Config` error when absent), and invoke it.  The returned list
records which tables' strategies were actually invoked. -/
def SyncEngine.perform_table_sync (env : EngineEnv) (st : EngineState)
    (table_name : String) : SyncResult SyncSummary × EngineState × List String :=
  let probe := SyncEngine.check_connectivity env st
  if !probe.1 then
    (.error (.invalidData "No internet connection"), probe.2, [])
  else if probe.2.registered.contains table_name then
    (env.strategyResult table_name, probe.2, [table_name])
  else
    (.error (.config ("No strategy registered for table: " ++ table_name)),
      probe.2, [])

/-- `SyncEngine::sync_table` (engine.rs lines 437-464): refuse with
`SyncInProgress` while `status.is_syncing` is set (leaving the status
untouched); otherwise set `is_syncing`, clear `last_error`, run
`perform_table_sync`, clear `is_syncing`, and record `last_sync` /
`last_error` from the outcome. -/
def SyncEngine.sync_table (env : EngineEnv) (st : EngineState)
    (table_name : String) : SyncResult SyncSummary × EngineState × List String :=
  if st.status.is_syncing then
    (.error SyncError.syncInProgress, st, [])
  else
    let st1 := { st with status :=
      { st.status with is_syncing := true, last_error := none } }
    let run := SyncEngine.perform_table_sync env st1 table_name
    let st2 := run.2.1
    let invoked := run.2.2
    let base := { st2 with status := { st2.status with is_syncing := false } }
    match run.1 with
    | .ok summary =>
        (.ok summary,
          { base with status := { base.status with
              last_sync := some env.now,
              last_error :=
                if summary.errors.isEmpty then base.status.last_error
                else some (joinComma summary.errors) } },
          invoked)
    | .error e =>
        (.error e,
          { base with status :=
            { base.status with last_error := some e.toString } },
          invoked)

/-- `SyncEngine::perform_all_tables_sync` (engine.rs lines 526-552):
check connectivity, then for every registered table call
`self.sync_table` — the full guarded entry point — collecting its
summary on success and a zeroed summary carrying the rendered error
otherwise. -/
def SyncEngine.perform_all_tables_sync (env : EngineEnv) (st : EngineState) :
    SyncResult (List SyncSummary) × EngineState × List String :=
  let probe := SyncEngine.check_connectivity env st
  if !probe.1 then
    (.error (.invalidData "No internet connection"), probe.2, [])
  else
    let step := probe.2.registered.foldl
      (fun (acc : List SyncSummary × EngineState × List String) name =>
        let run := SyncEngine.sync_table env acc.2.1 name
        match run.1 with
        | .ok summary => (acc.1 ++ [summary], run.2.1, acc.2.2 ++ run.2.2)
        | .error e =>
            (acc.1 ++ [{ table_name := name, remote_changes := 0,
                         local_changes := 0, conflicts := 0, resolved := 0,
                         errors := [e.toString], sync_duration_ms := 0 }],
             run.2.1, acc.2.2 ++ run.2.2))
      ([], probe.2, [])
    (.ok step.1, step.2.1, step.2.2)

/-- `SyncEngine::sync_all_tables` (engine.rs lines 491-523): the same
guard-set-run-clear shape as `sync_table`, around
`perform_all_tables_sync`, joining every summary's errors into
`status.last_error`. -/
def SyncEngine.sync_all_tables (env : EngineEnv) (st : EngineState) :
    SyncResult (List SyncSummary) × EngineState × List String :=
  if st.status.is_syncing then
    (.error SyncError.syncInProgress, st, [])
  else
    let st1 := { st with status :=
      { st.status with is_syncing := true, last_error := none } }
    let run := SyncEngine.perform_all_tables_sync env st1
    let st2 := run.2.1
    let invoked := run.2.2
    let base := { st2 with status := { st2.status with is_syncing := false } }
    match run.1 with
    | .ok summaries =>
        let total_errors := (summaries.map (fun s => s.errors)).flatten
        (.ok summaries,
          { base with status := { base.status with
              last_sync := some env.now,
              last_error :=
                if total_errors.isEmpty then base.status.last_error
                else some (joinComma total_errors) } },
          invoked)
    | .error e =>
        (.error e,
          { base with status :=
            { base.status with last_error := some e.toString } },
          invoked)

/-- `SyncEngine::trigger_data_pull` (engine.rs lines 100-171): set
`is_syncing` with no guard, run the fetch-and-insert block, clear
`is_syncing`, then on success stamp `initial_sync_completed`,
`last_sync` and clear `last_error`; on failure record the message and
return `InvalidData`. -/
def SyncEngine.trigger_data_pull (env : EngineEnv) (st : EngineState) :
    SyncResult Unit × EngineState :=
  let st1 := { st with status := { st.status with is_syncing := true } }
  let st2 := { st1 with status := { st1.status with is_syncing := false } }
  match env.pullResult with
  | .ok _ =>
      (.ok (),
        { st2 with status := { st2.status with
            initial_sync_completed := true,
            last_sync := some env.now,
            last_error := none } })
  | .error msg =>
      (.error (.invalidData msg),
        { st2 with status := { st2.status with last_error := some msg } })

/-- `SqliteLocalDataStore` seen through the `LocalDataStore` trait
interface, as the strategies receive it. -/
def sqliteLocalStore : LocalStore StoreState where
  get_changes := SqliteLocalDataStore.get_changes
  apply_changes := SqliteLocalDataStore.apply_changes
  get_last_sync_time := SqliteLocalDataStore.get_last_sync_time
  set_last_sync_time := SqliteLocalDataStore.set_last_sync_time

/-- The transformation `applyOne` performs on one main-table row for an
`Update` or `Delete` operation (sqlite.rs lines 204-218 and 238-243):
identity on rows whose `id` column does not equal the plain TEXT bind of
the operation's id, and on the malformed cases in which the SQL
statement would fail instead.  `Create` inserts a row rather than
transforming existing ones and is excluded from the idempotence
analysis. -/
def rowTransform (schema : List String) : SyncOperation → Row → Row
  | .create _ _, r => r
  | .update data md, r =>
      match data.asObject with
      | none => r
      | some fields =>
        let cols := (fields.map Prod.fst).filter (fun k => !(k == "id"))
        match colIdx schema "id" with
        | none => r
        | some i =>
            if r.get? i = some (SqlVal.str md.id) then updateRowCols schema cols fields r
            else r
  | .delete id md, r =>
      match colIdx schema "deleted_at", colIdx schema "id" with
      | some di, some i =>
          let dv := match md.deleted_at with
            | some ts => SqlVal.time ts
            | none => SqlVal.null
          if r.get? i = some (SqlVal.str id) then r.set di dv else r
      | _, _ => r

/-- The transformation `applyOne` performs on one `sync_metadata` row for
an `Update` or `Delete` operation (sqlite.rs lines 221-234 and 246-258). -/
def metaTransform (table_name : String) : SyncOperation → MetaRow → MetaRow
  | .create _ _, m => m
  | .update _ md, m =>
      if m.table_name = table_name ∧ m.record_id = md.id then
        { m with last_sync_at := some md.updated_at, remote_version := md.version }
      else m
  | .delete id md, m =>
      if m.table_name = table_name ∧ m.record_id = id then
        { m with last_sync_at := md.deleted_at, is_deleted := true }
      else m

/-- A whole batch of operations replayed over one main-table row. -/
def applyRowOps (schema : List String) (ops : List SyncOperation) (r : Row) : Row :=
  ops.foldl (fun acc op => rowTransform schema op acc) r

/-- A whole batch of operations replayed over one `sync_metadata` row. -/
def applyMetaOps (table_name : String) (ops : List SyncOperation) (m : MetaRow) : MetaRow :=
  ops.foldl (fun acc op => metaTransform table_name op acc) m

/-! ## Concrete instances used by the claims below -/

/-- An empty `books` table with the columns the sync scenarios touch,
as `database.rs` would create it (`id TEXT PRIMARY KEY`). -/
def booksEmpty : StoreState :=
  { tables := [("books", { schema := ["id", "title", "updated_at"], rows := [] })],
    sync_metadata := [] }

/-- A remote source with no changes that accepts every push. -/
def emptyRemote : RemoteSource Unit where
  fetch_changes := fun _ _ _ _ _ => Except.ok []
  push_changes := fun s _ _ => Except.ok ([], s)

/-- A local store with no observable state: every call succeeds and
reports nothing. -/
def unitLocal : LocalStore Unit where
  get_changes := fun _ _ _ _ => Except.ok []
  apply_changes := fun s _ _ => Except.ok s
  get_last_sync_time := fun _ _ => Except.ok none
  set_last_sync_time := fun s _ _ => Except.ok s

/-- A misbehaving remote paginator: every page request, at every offset,
answers the same non-empty page. -/
def badRemote : RemoteSource Unit where
  fetch_changes := fun _ _ _ _ _ =>
    Except.ok [(JValue.null,
      { id := "x", created_at := 0, updated_at := 0, deleted_at := none,
        version := 1 })]
  push_changes := fun s _ _ => Except.ok ([], s)

/-- A remote reporting exactly one changed record
`{id: "b1", title: "A", updated_at: 100}` since any watermark. -/
def c3remote : RemoteSource Unit where
  fetch_changes := fun _ _ _ _ _ =>
    Except.ok [(JValue.obj [("id", JValue.str "b1"), ("title", JValue.str "A"),
        ("updated_at", JValue.num 100)],
      { id := "b1", created_at := 100, updated_at := 100, deleted_at := none,
        version := 1 })]
  push_changes := fun s _ _ => Except.ok ([], s)

/-- The outcome `TwoWaySyncStrategy.sync_table` actually produces on the
clean-pull scenario: a successful summary counting one applied change,
yet a still-empty `books` table and a watermark equal to `Utc::now()`
(200), not the record timestamp 100. -/
def c3result : SyncSummary × StoreState × Unit × List SyncEvent :=
  ({ table_name := "books", remote_changes := 0, local_changes := 1,
     conflicts := 0, resolved := 0, errors := [], sync_duration_ms := 5 },
   { tables := [("books", { schema := ["id", "title", "updated_at"], rows := [] })],
     sync_metadata := [{ table_name := "books", record_id := "_sync_marker_",
                         last_sync_at := some 200, local_version := 1,
                         remote_version := 1, is_deleted := false }] },
   (),
   [SyncEvent.getLastSyncTime, SyncEvent.getChanges, SyncEvent.fetchChanges,
    SyncEvent.applyChanges, SyncEvent.setLastSyncTime])

/-- A healthy summary a registered strategy would report. -/
def c1goodSummary : SyncSummary :=
  { table_name := "books", remote_changes := 2, local_changes := 3,
    conflicts := 0, resolved := 0, errors := [], sync_duration_ms := 7 }

/-- An engine environment that is online and whose every registered
strategy succeeds with `c1goodSummary`. -/
def c1env : EngineEnv :=
  { connectivity := true,
    strategyResult := fun _ => Except.ok c1goodSummary,
    pullResult := Except.ok (),
    now := 500 }

/-- A fresh engine status: not syncing, no errors recorded. -/
def freshStatus : SyncStatus :=
  { is_online := false, is_syncing := false, last_sync := none,
    last_error := none, database_initialized := true,
    initial_sync_completed := false }

/-- A fresh engine with the single table `books` registered. -/
def c1st : EngineState := { status := freshStatus, registered := ["books"] }

/-- An engine whose status says a sync is already in progress. -/
def c9busySt : EngineState :=
  { status := { is_online := false, is_syncing := true, last_sync := none,
                last_error := none, database_initialized := true,
                initial_sync_completed := false },
    registered := ["books"] }

/-- A Create operation for record `r1` carrying `updated_at = 100`. -/
def c4op1 : SyncOperation :=
  SyncOperation.create (JValue.obj [("id", JValue.str "r1"), ("title", JValue.str "A")])
    { id := "r1", created_at := 100, updated_at := 100, deleted_at := none, version := 1 }

/-- An Update for the same record `r1` carrying the older
`updated_at = 50`. -/
def c4op2 : SyncOperation :=
  SyncOperation.update (JValue.obj [("id", JValue.str "r1"), ("title", JValue.str "B")])
    { id := "r1", created_at := 100, updated_at := 50, deleted_at := none, version := 2 }

/-- The store after `set_last_sync_time booksEmptyNoTable "books" 7` on a
store with no tables and no metadata: just the marker row. -/
def c4markedStore : StoreState :=
  { tables := [],
    sync_metadata := [{ table_name := "books", record_id := "_sync_marker_",
                        last_sync_at := some 7, local_version := 1,
                        remote_version := 1, is_deleted := false }] }

/-- The store after `apply_changes booksEmpty "books" [c4op1]`. -/
def c4st1 : StoreState :=
  { tables := [("books",
      { schema := ["id", "title", "updated_at"],
        rows := [[SqlVal.json (JValue.str "r1"), SqlVal.json (JValue.str "A"),
                  SqlVal.null]] })],
    sync_metadata := [{ table_name := "books", record_id := "r1",
                        last_sync_at := some 100, local_version := 1,
                        remote_version := 1, is_deleted := false }] }

/-- The store after further `apply_changes c4st1 "books" [c4op2]`: the
metadata row's `last_sync_at` has been rewritten to the Update's older
`updated_at`. -/
def c4st2 : StoreState :=
  { tables := [("books",
      { schema := ["id", "title", "updated_at"],
        rows := [[SqlVal.json (JValue.str "r1"), SqlVal.json (JValue.str "A"),
                  SqlVal.null]] })],
    sync_metadata := [{ table_name := "books", record_id := "r1",
                        last_sync_at := some 50, local_version := 1,
                        remote_version := 2, is_deleted := false }] }

/-- The successful result of a Two-Way pass over `booksEmpty` and
`emptyRemote` at `nowRace = nowMark = 200` with measured duration 5. -/
def c4passResult : SyncSummary × StoreState × Unit × List SyncEvent :=
  ({ table_name := "books", remote_changes := 0, local_changes := 0,
     conflicts := 0, resolved := 0, errors := [], sync_duration_ms := 5 },
   { tables := [("books", { schema := ["id", "title", "updated_at"], rows := [] })],
     sync_metadata := [{ table_name := "books", record_id := "_sync_marker_",
                         last_sync_at := some 200, local_version := 1,
                         remote_version := 1, is_deleted := false }] },
   (),
   [SyncEvent.getLastSyncTime, SyncEvent.getChanges, SyncEvent.fetchChanges,
    SyncEvent.setLastSyncTime])

/-! ## Helper lemmas -/

/-- Membership in a first-occurrence deduplication. -/
theorem mem_dedupFirst {α : Type} [DecidableEq α] (l : List α) (seen : List α) (x : α) :
    x ∈ dedupFirst l seen ↔ x ∈ l ∧ x ∉ seen := by
  induction l generalizing seen with
  | nil => simp [dedupFirst]
  | cons y ys ih =>
    by_cases hy : y ∈ seen
    · simp only [dedupFirst, if_pos hy, ih, List.mem_cons]
      constructor
      · rintro ⟨hxy, hxs⟩
        exact ⟨Or.inr hxy, hxs⟩
      · rintro ⟨hxy | hxy, hxs⟩
        · subst hxy; exact absurd hy hxs
        · exact ⟨hxy, hxs⟩
    · simp only [dedupFirst, if_neg hy, List.mem_cons, ih, List.mem_cons]
      constructor
      · rintro (rfl | ⟨hxy, hxs⟩)
        · exact ⟨Or.inl rfl, hy⟩
        · exact ⟨Or.inr hxy, fun h => hxs (Or.inr h)⟩
      · rintro ⟨rfl | hxy, hxs⟩
        · exact Or.inl rfl
        · by_cases hxy2 : x = y
          · exact Or.inl hxy2
          · refine Or.inr ⟨hxy, ?_⟩
            rintro (h | h)
            · exact hxy2 h
            · exact hxs h

/-- First-occurrence deduplication yields a duplicate-free list. -/
theorem nodup_dedupFirst {α : Type} [DecidableEq α] (l : List α) (seen : List α) :
    (dedupFirst l seen).Nodup := by
  induction l generalizing seen with
  | nil => simp [dedupFirst]
  | cons y ys ih =>
    by_cases hy : y ∈ seen
    · simpa [dedupFirst, hy] using ih seen
    · simp only [dedupFirst, if_neg hy, List.nodup_cons]
      refine ⟨fun h => ?_, ih _⟩
      rw [mem_dedupFirst] at h
      exact h.2 (List.mem_cons_self y seen)

/-- A key is absent from an object exactly when its lookup fails. -/
theorem lookupField_none_iff (l : List (String × JValue)) (k : String) :
    lookupField l k = none ↔ k ∉ l.map Prod.fst := by
  induction l with
  | nil => simp [lookupField]
  | cons p ps ih =>
    cases p with
    | mk a v =>
      by_cases h : a = k
      · subst h
        simp [lookupField]
      · simp [lookupField, h, ih, Ne.symm h]

/-- Lookup in an object built by mapping a key-preserving partial
function over a duplicate-free key list. -/
theorem lookupField_filterMap (ks : List String) (f : String → Option (String × JValue))
    (hf : ∀ k p, f k = some p → p.1 = k) (hnd : ks.Nodup) (k : String) :
    lookupField (ks.filterMap f) k =
      if k ∈ ks then (f k).map Prod.snd else none := by
  induction ks with
  | nil => simp [lookupField]
  | cons a as ih =>
    rw [List.nodup_cons] at hnd
    obtain ⟨hna, hnd'⟩ := hnd
    by_cases hk : k = a
    · subst hk
      cases hfa : f k with
      | none => simp [List.filterMap_cons, hfa, ih hnd', hna]
      | some p =>
        have hp := hf k p hfa
        simp [List.filterMap_cons, hfa, lookupField, hp]
    · cases hfa : f a with
      | none => simp [List.filterMap_cons, hfa, ih hnd', hk]
      | some p =>
        have hp := hf a p hfa
        have hpk : ¬(p.1 = k) := by
          rw [hp]
          exact fun h => hk h.symm
        simp [List.filterMap_cons, hfa, lookupField, hpk, ih hnd', hk]

/-- The keys of an object built as in `lookupField_filterMap` form a
sublist of the key list. -/
theorem keys_filterMap_sublist (ks : List String)
    (f : String → Option (String × JValue))
    (hf : ∀ k p, f k = some p → p.1 = k) :
    ((ks.filterMap f).map Prod.fst).Sublist ks := by
  induction ks with
  | nil => simp
  | cons a as ih =>
    cases hfa : f a with
    | none =>
      rw [List.filterMap_cons, hfa]
      exact ih.cons a
    | some p =>
      rw [List.filterMap_cons, hfa, List.map_cons, hf a p hfa]
      exact ih.cons₂ a

/-- `merge_values` on two objects, written as an explicit field list. -/
theorem merge_values_obj (c : SyncConflict) (lo ro : List (String × JValue))
    (hl : c.local_data = .obj lo) (hr : c.remote_data = .obj ro) :
    merge_values c = .ok (.obj ((dedupFirst (lo.map Prod.fst ++ ro.map Prod.fst) []).filterMap
      (fun k =>
        match lookupField lo k, lookupField ro k with
        | some lv, some rv =>
            some (k, merge_field lv rv c.local_metadata c.remote_metadata)
        | some lv, none => some (k, lv)
        | none, some rv => some (k, rv)
        | none, none => none))) := by
  unfold merge_values
  rw [hl, hr]
  rfl

/-- Pointwise description of the object `merge_values` builds. -/
theorem merge_values_fields_lookup (c : SyncConflict) (lo ro : List (String × JValue))
    (k : String) :
    lookupField ((dedupFirst (lo.map Prod.fst ++ ro.map Prod.fst) []).filterMap
      (fun k =>
        match lookupField lo k, lookupField ro k with
        | some lv, some rv =>
            some (k, merge_field lv rv c.local_metadata c.remote_metadata)
        | some lv, none => some (k, lv)
        | none, some rv => some (k, rv)
        | none, none => none)) k =
      (match lookupField lo k, lookupField ro k with
        | some lv, some rv =>
            some (merge_field lv rv c.local_metadata c.remote_metadata)
        | some lv, none => some lv
        | none, some rv => some rv
        | none, none => none) := by
  rw [lookupField_filterMap _ _ ?hf (nodup_dedupFirst _ _) k]
  case hf =>
    intro k p hp
    revert hp
    cases lookupField lo k <;> cases lookupField ro k <;> intro hp <;>
      first
        | exact Option.noConfusion hp
        | exact (congrArg Prod.fst (Option.some.inj hp)).symm
  by_cases hmem : k ∈ dedupFirst (lo.map Prod.fst ++ ro.map Prod.fst) []
  · rw [if_pos hmem]
    cases lookupField lo k <;> cases lookupField ro k <;> simp
  · rw [if_neg hmem]
    rw [mem_dedupFirst] at hmem
    simp only [List.mem_append, List.not_mem_nil, not_false_iff, and_true] at hmem
    push_neg at hmem
    obtain ⟨h1, h2⟩ := hmem
    rw [← lookupField_none_iff] at h1 h2
    rw [h1, h2]

/-- The scalar-mismatch branch of `merge_field`: with unequal, non-null
values that are not both arrays and not both objects, the field resolves
by comparing the enclosing metadata timestamps, remote only when
strictly newer. -/
theorem merge_field_scalar (lv rv : JValue) (lm rm : SyncMetadata)
    (hne : lv ≠ rv) (hln : lv ≠ JValue.null) (hrn : rv ≠ JValue.null)
    (harr : lv.asArray = none ∨ rv.asArray = none)
    (hobj : lv.asObject = none ∨ rv.asObject = none) :
    merge_field lv rv lm rm =
      if rm.updated_at > lm.updated_at then rv else lv := by
  unfold merge_field
  rw [if_neg hne]
  cases lv <;> cases rv <;>
    simp_all [JValue.isNull, JValue.asArray, JValue.asObject]

/-! ## Claim C6 -/

/-- C6: `DefaultConflictResolver::resolve` with the `NewestWins` strategy
returns the local record exactly when `local_metadata.updated_at >
remote_metadata.updated_at` (the equivalence is stated for conflicts
whose two records differ, where "which record was returned" is well
defined), and equal timestamps always resolve to the remote record. -/
theorem newestWins_local_iff_strictly_newer (c : SyncConflict)
    (hne : c.local_data ≠ c.remote_data) :
    (DefaultConflictResolver.resolve c ConflictResolutionStrategy.newestWins
        = .ok c.local_data ↔
      c.local_metadata.updated_at > c.remote_metadata.updated_at) ∧
    (c.local_metadata.updated_at = c.remote_metadata.updated_at →
      DefaultConflictResolver.resolve c ConflictResolutionStrategy.newestWins
        = .ok c.remote_data) := by
  unfold DefaultConflictResolver.resolve
  by_cases h : c.local_metadata.updated_at > c.remote_metadata.updated_at
  · rw [if_pos h]
    refine ⟨⟨fun _ => h, fun _ => rfl⟩, fun heq => ?_⟩
    exact absurd h (by rw [heq]; exact lt_irrefl _)
  · rw [if_neg h]
    refine ⟨⟨fun hok => ?_, fun hgt => absurd hgt h⟩, fun _ => rfl⟩
    exact absurd (Except.ok.inj hok).symm hne

/-- C6 witness: a conflict with distinct records and equal timestamps. -/
theorem newestWins_local_iff_strictly_newer_witness :
    ((JValue.num 1 : JValue) ≠ JValue.num 2) ∧
    ((DefaultConflictResolver.resolve
        ⟨JValue.num 1, JValue.num 2, ⟨"b1", 0, 5, none, 1⟩, ⟨"b1", 0, 5, none, 1⟩⟩
        ConflictResolutionStrategy.newestWins = .ok (JValue.num 1) ↔
      (5 : Timestamp) > 5) ∧
     ((5 : Timestamp) = 5 →
       DefaultConflictResolver.resolve
        ⟨JValue.num 1, JValue.num 2, ⟨"b1", 0, 5, none, 1⟩, ⟨"b1", 0, 5, none, 1⟩⟩
        ConflictResolutionStrategy.newestWins = .ok (JValue.num 2))) :=
  ⟨by decide,
    newestWins_local_iff_strictly_newer
      ⟨JValue.num 1, JValue.num 2, ⟨"b1", 0, 5, none, 1⟩, ⟨"b1", 0, 5, none, 1⟩⟩
      (by decide)⟩

/-! ## Claim C7 -/

/-- C7 counterexample: local `{x: 1}` and remote `{x: 2}` with equal
`updated_at` timestamps — the Merge strategy resolves the scalar
mismatch on field `x` to the LOCAL value `1`, not the remote value `2`
that the claim (equal timestamps resolve to remote, as in `NewestWins`)
requires. -/
theorem merge_equal_timestamps_prefer_local_cex :
    DefaultConflictResolver.resolve
      ⟨JValue.obj [("x", JValue.num 1)], JValue.obj [("x", JValue.num 2)],
        ⟨"b1", 0, 5, none, 1⟩, ⟨"b1", 0, 5, none, 1⟩⟩
      ConflictResolutionStrategy.merge = .ok (JValue.obj [("x", JValue.num 1)]) ∧
    DefaultConflictResolver.resolve
      ⟨JValue.obj [("x", JValue.num 1)], JValue.obj [("x", JValue.num 2)],
        ⟨"b1", 0, 5, none, 1⟩, ⟨"b1", 0, 5, none, 1⟩⟩
      ConflictResolutionStrategy.merge ≠ .ok (JValue.obj [("x", JValue.num 2)]) := by
  decide

/-- C7 (amended): in the Merge strategy, a field present on both sides
with unequal, non-null, non-array, non-object values resolves to the
remote value exactly when `remote_metadata.updated_at` is strictly newer
and to the local value otherwise — in particular, equal timestamps keep
the LOCAL value, unlike `resolve` with `NewestWins`, whose ties go to
remote. -/
theorem merge_scalar_fallback_ties_to_local (c : SyncConflict)
    (lo ro : List (String × JValue)) (k : String) (lv rv : JValue)
    (hl : c.local_data = .obj lo) (hr : c.remote_data = .obj ro)
    (hlo : lookupField lo k = some lv) (hro : lookupField ro k = some rv)
    (hne : lv ≠ rv) (hln : lv ≠ JValue.null) (hrn : rv ≠ JValue.null)
    (harr : lv.asArray = none ∨ rv.asArray = none)
    (hobj : lv.asObject = none ∨ rv.asObject = none) :
    ∃ fields, DefaultConflictResolver.resolve c ConflictResolutionStrategy.merge
        = .ok (.obj fields) ∧
      lookupField fields k =
        some (if c.remote_metadata.updated_at > c.local_metadata.updated_at
          then rv else lv) ∧
      (c.remote_metadata.updated_at = c.local_metadata.updated_at →
        lookupField fields k = some lv) := by
  have hres : DefaultConflictResolver.resolve c ConflictResolutionStrategy.merge
      = merge_values c := rfl
  rw [hres, merge_values_obj c lo ro hl hr]
  refine ⟨_, rfl, ?_, ?_⟩
  · rw [merge_values_fields_lookup c lo ro k, hlo, hro]
    show some (merge_field lv rv c.local_metadata c.remote_metadata) = _
    rw [merge_field_scalar lv rv c.local_metadata c.remote_metadata hne hln hrn harr hobj]
  · intro heq
    rw [merge_values_fields_lookup c lo ro k, hlo, hro]
    show some (merge_field lv rv c.local_metadata c.remote_metadata) = _
    rw [merge_field_scalar lv rv c.local_metadata c.remote_metadata hne hln hrn harr hobj]
    rw [if_neg (by rw [heq]; exact lt_irrefl _)]

/-- C7 witness: `{x: 1}` against `{x: 2}` with a strictly newer local
record. -/
theorem merge_scalar_fallback_ties_to_local_witness :
    (lookupField [("x", JValue.num 1)] "x" = some (JValue.num 1) ∧
     lookupField [("x", JValue.num 2)] "x" = some (JValue.num 2) ∧
     (JValue.num 1 : JValue) ≠ JValue.num 2) ∧
    (∃ fields,
      DefaultConflictResolver.resolve
        ⟨JValue.obj [("x", JValue.num 1)], JValue.obj [("x", JValue.num 2)],
          ⟨"b1", 0, 7, none, 1⟩, ⟨"b1", 0, 5, none, 1⟩⟩
        ConflictResolutionStrategy.merge = .ok (.obj fields) ∧
      lookupField fields "x" =
        some (if (5 : Timestamp) > 7 then JValue.num 2 else JValue.num 1) ∧
      ((5 : Timestamp) = 7 → lookupField fields "x" = some (JValue.num 1))) :=
  ⟨⟨by decide, by decide, by decide⟩,
    merge_scalar_fallback_ties_to_local
      ⟨JValue.obj [("x", JValue.num 1)], JValue.obj [("x", JValue.num 2)],
        ⟨"b1", 0, 7, none, 1⟩, ⟨"b1", 0, 5, none, 1⟩⟩
      [("x", JValue.num 1)] [("x", JValue.num 2)] "x" (JValue.num 1) (JValue.num 2)
      rfl rfl (by decide) (by decide) (by decide) (by decide) (by decide)
      (Or.inl rfl) (Or.inl rfl)⟩

/-! ## Claim C8 -/

/-- C8: resolving a conflict between two JSON objects with disjoint field
sets under the Merge strategy yields their union: every field of either
side appears with its original value, the result's keys are
duplicate-free, and no key outside the two field sets appears. -/
theorem merge_disjoint_fields_union (c : SyncConflict)
    (lo ro : List (String × JValue))
    (hl : c.local_data = .obj lo) (hr : c.remote_data = .obj ro)
    (hdis : ∀ k, lookupField lo k = none ∨ lookupField ro k = none) :
    ∃ fields, DefaultConflictResolver.resolve c ConflictResolutionStrategy.merge
        = .ok (.obj fields) ∧
      (fields.map Prod.fst).Nodup ∧
      (∀ k v, lookupField lo k = some v → lookupField fields k = some v) ∧
      (∀ k v, lookupField ro k = some v → lookupField fields k = some v) ∧
      (∀ k, lookupField fields k ≠ none →
        lookupField lo k ≠ none ∨ lookupField ro k ≠ none) := by
  have hres : DefaultConflictResolver.resolve c ConflictResolutionStrategy.merge
      = merge_values c := rfl
  rw [hres, merge_values_obj c lo ro hl hr]
  refine ⟨_, rfl, ?_, ?_, ?_, ?_⟩
  · exact ((keys_filterMap_sublist _ _ (fun k p hp => by
      revert hp
      cases lookupField lo k <;> cases lookupField ro k <;> intro hp <;>
        first
          | exact Option.noConfusion hp
          | exact (congrArg Prod.fst (Option.some.inj hp)).symm)).nodup
      (nodup_dedupFirst _ _))
  · intro k v hkv
    rw [merge_values_fields_lookup c lo ro k, hkv]
    rcases hdis k with h | h
    · rw [hkv] at h
      exact Option.noConfusion h
    · rw [h]
  · intro k v hkv
    rw [merge_values_fields_lookup c lo ro k, hkv]
    rcases hdis k with h | h
    · rw [h]
    · rw [hkv] at h
      exact Option.noConfusion h
  · intro k hk
    rw [merge_values_fields_lookup c lo ro k] at hk
    by_contra hcon
    push_neg at hcon
    rw [hcon.1, hcon.2] at hk
    exact hk rfl

/-- C8 witness: merging `{a: 1}` with `{b: "t"}`. -/
theorem merge_disjoint_fields_union_witness :
    (∀ k, lookupField [("a", JValue.num 1)] k = none ∨
          lookupField [("b", JValue.str "t")] k = none) ∧
    (∃ fields,
      DefaultConflictResolver.resolve
        ⟨JValue.obj [("a", JValue.num 1)], JValue.obj [("b", JValue.str "t")],
          ⟨"b1", 0, 5, none, 1⟩, ⟨"b1", 0, 9, none, 1⟩⟩
        ConflictResolutionStrategy.merge = .ok (.obj fields) ∧
      (fields.map Prod.fst).Nodup ∧
      (∀ k v, lookupField [("a", JValue.num 1)] k = some v →
        lookupField fields k = some v) ∧
      (∀ k v, lookupField [("b", JValue.str "t")] k = some v →
        lookupField fields k = some v) ∧
      (∀ k, lookupField fields k ≠ none →
        lookupField [("a", JValue.num 1)] k ≠ none ∨
        lookupField [("b", JValue.str "t")] k ≠ none)) := by
  have hdis : ∀ k, lookupField [("a", JValue.num 1)] k = none ∨
      lookupField [("b", JValue.str "t")] k = none := by
    intro k
    by_cases h : "a" = k
    · right
      simp [lookupField, h ▸ (by decide : ("b" : String) ≠ "a")]
    · left
      simp [lookupField, h]
  exact ⟨hdis,
    merge_disjoint_fields_union
      ⟨JValue.obj [("a", JValue.num 1)], JValue.obj [("b", JValue.str "t")],
        ⟨"b1", 0, 5, none, 1⟩, ⟨"b1", 0, 9, none, 1⟩⟩
      [("a", JValue.num 1)] [("b", JValue.str "t")] rfl rfl hdis⟩

/-- The key fields and `local_version` of a metadata row survive any single replayed operation. -/
theorem metaTransform_keys (tn : String) (op : SyncOperation) (m : MetaRow) :
    (metaTransform tn op m).table_name = m.table_name ∧
    (metaTransform tn op m).record_id = m.record_id ∧
    (metaTransform tn op m).local_version = m.local_version := by
  cases op with
  | create data md => simp [metaTransform]
  | update data md =>
    simp only [metaTransform]
    split <;> simp
  | delete id md =>
    simp only [metaTransform]
    split <;> simp

/-- The key fields and `local_version` of a metadata row survive a whole replayed batch. -/
theorem applyMetaOps_keys (tn : String) (ops : List SyncOperation) (m : MetaRow) :
    (applyMetaOps tn ops m).table_name = m.table_name ∧
    (applyMetaOps tn ops m).record_id = m.record_id ∧
    (applyMetaOps tn ops m).local_version = m.local_version := by
  induction ops generalizing m with
  | nil => simp [applyMetaOps]
  | cons op rest ih =>
    have h1 := metaTransform_keys tn op m
    have h2 := ih (metaTransform tn op m)
    simp only [applyMetaOps, List.foldl_cons] at h2 ⊢
    exact ⟨h2.1.trans h1.1, h2.2.1.trans h1.2.1, h2.2.2.trans h1.2.2⟩

/-- Replaying a batch over two metadata rows with the same keys writes the same constants: each mutable field either coincides across the two runs or is untouched in both. -/
theorem applyMetaOps_char (tn : String) (ops : List SyncOperation) (m m' : MetaRow)
    (ht : m'.table_name = m.table_name) (hr : m'.record_id = m.record_id) :
    ((applyMetaOps tn ops m').last_sync_at = (applyMetaOps tn ops m).last_sync_at ∨
      ((applyMetaOps tn ops m').last_sync_at = m'.last_sync_at ∧
       (applyMetaOps tn ops m).last_sync_at = m.last_sync_at)) ∧
    ((applyMetaOps tn ops m').remote_version = (applyMetaOps tn ops m).remote_version ∨
      ((applyMetaOps tn ops m').remote_version = m'.remote_version ∧
       (applyMetaOps tn ops m).remote_version = m.remote_version)) ∧
    ((applyMetaOps tn ops m').is_deleted = (applyMetaOps tn ops m).is_deleted ∨
      ((applyMetaOps tn ops m').is_deleted = m'.is_deleted ∧
       (applyMetaOps tn ops m).is_deleted = m.is_deleted)) := by
  induction ops generalizing m m' with
  | nil => simp [applyMetaOps]
  | cons op rest ih =>
    have hkeys := metaTransform_keys tn op m
    have hkeys' := metaTransform_keys tn op m'
    have ht1 : (metaTransform tn op m').table_name = (metaTransform tn op m).table_name := by
      rw [hkeys'.1, hkeys.1, ht]
    have hr1 : (metaTransform tn op m').record_id = (metaTransform tn op m).record_id := by
      rw [hkeys'.2.1, hkeys.2.1, hr]
    have step := ih (metaTransform tn op m) (metaTransform tn op m') ht1 hr1
    simp only [applyMetaOps, List.foldl_cons] at step ⊢
    -- Convert the inner disjunctions relative to the transformed rows
    -- into disjunctions relative to the originals, by case analysis on
    -- whether the head operation writes each field.
    refine ⟨?_, ?_, ?_⟩
    · rcases step.1 with h | ⟨h1, h2⟩
      · exact Or.inl h
      · cases op with
        | create data md => exact Or.inr ⟨by simpa [metaTransform] using h1,
            by simpa [metaTransform] using h2⟩
        | update data md =>
          by_cases hg : m.table_name = tn ∧ m.record_id = md.id
          · have hg' : m'.table_name = tn ∧ m'.record_id = md.id := by
              rw [ht, hr]; exact hg
            rw [h1, h2]
            simp [metaTransform, hg, hg']
          · have hg' : ¬(m'.table_name = tn ∧ m'.record_id = md.id) := by
              rw [ht, hr]; exact hg
            exact Or.inr ⟨by simpa [metaTransform, hg'] using h1,
              by simpa [metaTransform, hg] using h2⟩
        | delete id md =>
          by_cases hg : m.table_name = tn ∧ m.record_id = id
          · have hg' : m'.table_name = tn ∧ m'.record_id = id := by
              rw [ht, hr]; exact hg
            rw [h1, h2]
            simp [metaTransform, hg, hg']
          · have hg' : ¬(m'.table_name = tn ∧ m'.record_id = id) := by
              rw [ht, hr]; exact hg
            exact Or.inr ⟨by simpa [metaTransform, hg'] using h1,
              by simpa [metaTransform, hg] using h2⟩
    · rcases step.2.1 with h | ⟨h1, h2⟩
      · exact Or.inl h
      · cases op with
        | create data md => exact Or.inr ⟨by simpa [metaTransform] using h1,
            by simpa [metaTransform] using h2⟩
        | update data md =>
          by_cases hg : m.table_name = tn ∧ m.record_id = md.id
          · have hg' : m'.table_name = tn ∧ m'.record_id = md.id := by
              rw [ht, hr]; exact hg
            rw [h1, h2]
            simp [metaTransform, hg, hg']
          · have hg' : ¬(m'.table_name = tn ∧ m'.record_id = md.id) := by
              rw [ht, hr]; exact hg
            exact Or.inr ⟨by simpa [metaTransform, hg'] using h1,
              by simpa [metaTransform, hg] using h2⟩
        | delete id md =>
          by_cases hg : m.table_name = tn ∧ m.record_id = id
          · have hg' : m'.table_name = tn ∧ m'.record_id = id := by
              rw [ht, hr]; exact hg
            exact Or.inr ⟨by simpa [metaTransform, hg'] using h1,
              by simpa [metaTransform, hg] using h2⟩
          · have hg' : ¬(m'.table_name = tn ∧ m'.record_id = id) := by
              rw [ht, hr]; exact hg
            exact Or.inr ⟨by simpa [metaTransform, hg'] using h1,
              by simpa [metaTransform, hg] using h2⟩
    · rcases step.2.2 with h | ⟨h1, h2⟩
      · exact Or.inl h
      · cases op with
        | create data md => exact Or.inr ⟨by simpa [metaTransform] using h1,
            by simpa [metaTransform] using h2⟩
        | update data md =>
          by_cases hg : m.table_name = tn ∧ m.record_id = md.id
          · have hg' : m'.table_name = tn ∧ m'.record_id = md.id := by
              rw [ht, hr]; exact hg
            exact Or.inr ⟨by simpa [metaTransform, hg'] using h1,
              by simpa [metaTransform, hg] using h2⟩
          · have hg' : ¬(m'.table_name = tn ∧ m'.record_id = md.id) := by
              rw [ht, hr]; exact hg
            exact Or.inr ⟨by simpa [metaTransform, hg'] using h1,
              by simpa [metaTransform, hg] using h2⟩
        | delete id md =>
          by_cases hg : m.table_name = tn ∧ m.record_id = id
          · have hg' : m'.table_name = tn ∧ m'.record_id = id := by
              rw [ht, hr]; exact hg
            rw [h1, h2]
            simp [metaTransform, hg, hg']
          · have hg' : ¬(m'.table_name = tn ∧ m'.record_id = id) := by
              rw [ht, hr]; exact hg
            exact Or.inr ⟨by simpa [metaTransform, hg'] using h1,
              by simpa [metaTransform, hg] using h2⟩

/-- Replaying a batch over a `sync_metadata` row is idempotent. -/
theorem applyMetaOps_replay (tn : String) (ops : List SyncOperation) (m : MetaRow) :
    applyMetaOps tn ops (applyMetaOps tn ops m) = applyMetaOps tn ops m := by
  have hkeys := applyMetaOps_keys tn ops m
  have hchar := applyMetaOps_char tn ops m (applyMetaOps tn ops m) hkeys.1 hkeys.2.1
  have hkeys2 := applyMetaOps_keys tn ops (applyMetaOps tn ops m)
  have hls : (applyMetaOps tn ops (applyMetaOps tn ops m)).last_sync_at
      = (applyMetaOps tn ops m).last_sync_at := by
    rcases hchar.1 with h | ⟨h1, _⟩
    · exact h
    · exact h1
  have hrv : (applyMetaOps tn ops (applyMetaOps tn ops m)).remote_version
      = (applyMetaOps tn ops m).remote_version := by
    rcases hchar.2.1 with h | ⟨h1, _⟩
    · exact h
    · exact h1
  have hd : (applyMetaOps tn ops (applyMetaOps tn ops m)).is_deleted
      = (applyMetaOps tn ops m).is_deleted := by
    rcases hchar.2.2 with h | ⟨h1, _⟩
    · exact h
    · exact h1
  have h1 := hkeys2.1
  have h2 := hkeys2.2.1
  have h3 := hkeys2.2.2
  cases hb : applyMetaOps tn ops (applyMetaOps tn ops m)
  cases ha : applyMetaOps tn ops m
  rw [hb, ha] at hls hrv hd h1 h2 h3
  simp_all

/-- `colIdx` indexes the column it names. -/
theorem colIdx_get (schema : List String) (c : String) (i : Nat)
    (h : colIdx schema c = some i) : schema.get? i = some c := by
  induction schema generalizing i with
  | nil => simp [colIdx] at h
  | cons a as ih =>
    by_cases ha : a = c
    · subst ha
      simp only [colIdx, if_pos rfl] at h
      cases h
      rfl
    · simp only [colIdx, if_neg ha] at h
      cases hi : colIdx as c with
      | none => rw [hi] at h; cases h
      | some j =>
        rw [hi] at h
        simp only [Option.map_some'] at h
        cases h
        exact ih j hi

/-- A positional write on two same-length rows either writes the same constant to the inspected cell or leaves it untouched in both. -/
theorem set_cell_char (r r' : Row) (i : Nat) (v : SqlVal) (j : Nat)
    (hlen : r.length = r'.length) :
    (r'.set i v).get? j = (r.set i v).get? j ∨
      ((r'.set i v).get? j = r'.get? j ∧ (r.set i v).get? j = r.get? j) := by
  by_cases hij : i = j
  · subst hij
    by_cases hi : i < r.length
    · left
      have h1 : (r'.set i v).get? i = some v := by
        have : i < r'.length := by omega
        simp [List.get?_eq_getElem?, List.getElem?_set_self', this]
      have h2 : (r.set i v).get? i = some v := by
        simp [List.get?_eq_getElem?, List.getElem?_set_self', hi]
      rw [h1, h2]
    · right
      rw [List.set_eq_of_length_le (by omega), List.set_eq_of_length_le (by omega)]
      exact ⟨rfl, rfl⟩
  · right
    refine ⟨?_, ?_⟩ <;>
      simp [List.get?_eq_getElem?, List.getElem?_set_ne hij]

/-- The UPDATE `SET` clause preserves the number of columns. -/
theorem updateRowCols_length (schema : List String) (cols : List String)
    (fields : List (String × JValue)) (r : Row) :
    (updateRowCols schema cols fields r).length = r.length := by
  induction cols generalizing r with
  | nil => rfl
  | cons c cs ih =>
    have h : updateRowCols schema (c :: cs) fields r
        = updateRowCols schema cs fields
            (match colIdx schema c, lookupField fields c with
              | some i, some v => r.set i (SqlVal.json v)
              | _, _ => r) := rfl
    rw [h]
    cases colIdx schema c <;> cases lookupField fields c <;>
      first
        | exact ih r
        | exact (ih _).trans (by simp)

/-- The UPDATE `SET` clause on two same-length rows either writes the same constant to the inspected cell or leaves it untouched in both. -/
theorem updateRowCols_cell_char (schema : List String) (cols : List String)
    (fields : List (String × JValue)) (r r' : Row) (j : Nat)
    (hlen : r.length = r'.length) :
    (updateRowCols schema cols fields r').get? j = (updateRowCols schema cols fields r).get? j ∨
      ((updateRowCols schema cols fields r').get? j = r'.get? j ∧
       (updateRowCols schema cols fields r).get? j = r.get? j) := by
  induction cols generalizing r r' with
  | nil => exact Or.inr ⟨rfl, rfl⟩
  | cons c cs ih =>
    have h : ∀ s : Row, updateRowCols schema (c :: cs) fields s
        = updateRowCols schema cs fields
            (match colIdx schema c, lookupField fields c with
              | some i, some v => s.set i (SqlVal.json v)
              | _, _ => s) := fun s => rfl
    rw [h r, h r']
    cases colIdx schema c with
    | none =>
      cases lookupField fields c with
      | none => exact ih r r' hlen
      | some v => exact ih r r' hlen
    | some i =>
      cases lookupField fields c with
      | none => exact ih r r' hlen
      | some v =>
        have hlen2 : (r.set i (SqlVal.json v)).length = (r'.set i (SqlVal.json v)).length := by
          simp [hlen]
        have step := ih (r.set i (SqlVal.json v)) (r'.set i (SqlVal.json v)) hlen2
        rcases step with hcase | ⟨h1, h2⟩
        · exact Or.inl hcase
        · rcases set_cell_char r r' i (SqlVal.json v) j hlen with hs | ⟨hs1, hs2⟩
          · left
            rw [h1, h2, hs]
          · right
            exact ⟨h1.trans hs1, h2.trans hs2⟩

/-- The UPDATE `SET` clause never touches a column it does not name. -/
theorem updateRowCols_preserves_cell (schema : List String) (cols : List String)
    (fields : List (String × JValue)) (r : Row) (i : Nat) (name : String)
    (hname : schema.get? i = some name)
    (hcols : ∀ c ∈ cols, c ≠ name) :
    (updateRowCols schema cols fields r).get? i = r.get? i := by
  induction cols generalizing r with
  | nil => rfl
  | cons c cs ih =>
    have h : updateRowCols schema (c :: cs) fields r
        = updateRowCols schema cs fields
            (match colIdx schema c, lookupField fields c with
              | some i, some v => r.set i (SqlVal.json v)
              | _, _ => r) := rfl
    rw [h]
    have hcs : ∀ c ∈ cs, c ≠ name := fun x hx => hcols x (List.mem_cons_of_mem c hx)
    cases hci : colIdx schema c with
    | none =>
      cases lookupField fields c with
      | none => exact ih r hcs
      | some v => exact ih r hcs
    | some jx =>
      cases lookupField fields c with
      | none => exact ih r hcs
      | some v =>
        have hj : schema.get? jx = some c := colIdx_get schema c jx hci
        have hji : jx ≠ i := by
          intro heq
          rw [heq, hname] at hj
          exact hcols c (List.mem_cons_self c cs) (Option.some.inj hj).symm
        rw [ih _ hcs]
        simp [List.get?_eq_getElem?, List.getElem?_set_ne hji]

/-- A replayed operation preserves the number of columns of a row. -/
theorem rowTransform_length (schema : List String) (op : SyncOperation) (r : Row) :
    (rowTransform schema op r).length = r.length := by
  cases op with
  | create data md => rfl
  | update data md =>
    cases hobj : data.asObject with
    | none => simp [rowTransform, hobj]
    | some fields =>
      cases hidx : colIdx schema "id" with
      | none => simp [rowTransform, hobj, hidx]
      | some i =>
        by_cases hg : r[i]? = some (SqlVal.str md.id)
        · simp [rowTransform, hobj, hidx, hg, updateRowCols_length]
        · simp [rowTransform, hobj, hidx, hg]
  | delete id md =>
    cases hdt : colIdx schema "deleted_at" with
    | none => simp [rowTransform, hdt]
    | some di =>
      cases hidx : colIdx schema "id" with
      | none => simp [rowTransform, hdt, hidx]
      | some i =>
        by_cases hg : r[i]? = some (SqlVal.str id)
        · simp [rowTransform, hdt, hidx, hg]
        · simp [rowTransform, hdt, hidx, hg]

/-- A replayed `Update` or `Delete` never writes the `id` column (an `Update` filters `id` out of its `SET` clause; a `Delete` writes only `deleted_at`). -/
theorem rowTransform_preserves_id (schema : List String) (op : SyncOperation) (r : Row)
    (i : Nat) (hid : schema.get? i = some "id") :
    (rowTransform schema op r).get? i = r.get? i := by
  cases op with
  | create data md => rfl
  | update data md =>
    cases hobj : data.asObject with
    | none => simp [rowTransform, hobj]
    | some fields =>
      cases hidx : colIdx schema "id" with
      | none => simp [rowTransform, hobj, hidx]
      | some i0 =>
        by_cases hg : r[i0]? = some (SqlVal.str md.id)
        · simp only [rowTransform, hobj, hidx, List.get?_eq_getElem?, hg, if_pos]
          rw [← List.get?_eq_getElem?, ← List.get?_eq_getElem?]
          refine updateRowCols_preserves_cell schema _ fields r i "id" hid ?_
          intro c hc
          rw [List.mem_filter] at hc
          intro hceq
          subst hceq
          simp at hc
        · simp [rowTransform, hobj, hidx, hg]
  | delete id md =>
    cases hdt : colIdx schema "deleted_at" with
    | none => simp [rowTransform, hdt]
    | some di =>
      cases hidx : colIdx schema "id" with
      | none => simp [rowTransform, hdt, hidx]
      | some i0 =>
        by_cases hg : r[i0]? = some (SqlVal.str id)
        · have hdel : schema.get? di = some "deleted_at" := colIdx_get schema _ di hdt
          have hne : di ≠ i := by
            intro heq
            rw [heq, hid] at hdel
            exact absurd (Option.some.inj hdel) (by decide)
          simp [rowTransform, hdt, hidx, hg, List.get?_eq_getElem?,
            List.getElem?_set_ne hne]
        · simp [rowTransform, hdt, hidx, hg]

/-- A replayed operation on two same-length rows that agree on the `id` column either writes the same constant to the inspected cell or leaves it untouched in both. -/
theorem rowTransform_cell_char (schema : List String) (op : SyncOperation)
    (r r' : Row) (j : Nat) (hlen : r.length = r'.length)
    (hid : ∀ i, colIdx schema "id" = some i → r'.get? i = r.get? i) :
    (rowTransform schema op r').get? j = (rowTransform schema op r).get? j ∨
      ((rowTransform schema op r').get? j = r'.get? j ∧
       (rowTransform schema op r).get? j = r.get? j) := by
  cases op with
  | create data md => exact Or.inr ⟨rfl, rfl⟩
  | update data md =>
    cases hobj : data.asObject with
    | none => simp [rowTransform, hobj]
    | some fields =>
      cases hidx : colIdx schema "id" with
      | none => simp [rowTransform, hobj, hidx]
      | some i0 =>
        have hguard : r'.get? i0 = r.get? i0 := hid i0 hidx
        by_cases hg : r[i0]? = some (SqlVal.str md.id)
        · have hg' : r'[i0]? = some (SqlVal.str md.id) := by
            rw [← List.get?_eq_getElem?] at hg ⊢
            rw [hguard, hg]
          simp only [rowTransform, hobj, hidx, List.get?_eq_getElem?, hg, hg', if_pos]
          simp only [← List.get?_eq_getElem?]
          exact updateRowCols_cell_char schema _ fields r r' j hlen
        · have hg' : ¬(r'[i0]? = some (SqlVal.str md.id)) := by
            rw [← List.get?_eq_getElem?] at hg ⊢
            rw [hguard]
            exact hg
          simp [rowTransform, hobj, hidx, List.get?_eq_getElem?, hg, hg']
  | delete id md =>
    cases hdt : colIdx schema "deleted_at" with
    | none => simp [rowTransform, hdt]
    | some di =>
      cases hidx : colIdx schema "id" with
      | none => simp [rowTransform, hdt, hidx]
      | some i0 =>
        have hguard : r'.get? i0 = r.get? i0 := hid i0 hidx
        by_cases hg : r[i0]? = some (SqlVal.str id)
        · have hg' : r'[i0]? = some (SqlVal.str id) := by
            rw [← List.get?_eq_getElem?] at hg ⊢
            rw [hguard, hg]
          simp only [rowTransform, hdt, hidx, List.get?_eq_getElem?, hg, hg', if_pos]
          simp only [← List.get?_eq_getElem?]
          exact set_cell_char r r' di _ j hlen
        · have hg' : ¬(r'[i0]? = some (SqlVal.str id)) := by
            rw [← List.get?_eq_getElem?] at hg ⊢
            rw [hguard]
            exact hg
          simp [rowTransform, hdt, hidx, List.get?_eq_getElem?, hg, hg']

/-- A replayed batch preserves the number of columns of a row. -/
theorem applyRowOps_length (schema : List String) (ops : List SyncOperation) (r : Row) :
    (applyRowOps schema ops r).length = r.length := by
  induction ops generalizing r with
  | nil => rfl
  | cons op rest ih =>
    simp only [applyRowOps, List.foldl_cons] at ih ⊢
    exact (ih (rowTransform schema op r)).trans (rowTransform_length schema op r)

/-- A replayed batch never writes the `id` column. -/
theorem applyRowOps_preserves_id (schema : List String) (ops : List SyncOperation)
    (r : Row) (i : Nat) (hid : schema.get? i = some "id") :
    (applyRowOps schema ops r).get? i = r.get? i := by
  induction ops generalizing r with
  | nil => rfl
  | cons op rest ih =>
    simp only [applyRowOps, List.foldl_cons] at ih ⊢
    exact (ih (rowTransform schema op r)).trans (rowTransform_preserves_id schema op r i hid)

/-- Write/untouched characterisation of a replayed batch, lifted from single operations. -/
theorem applyRowOps_cell_char (schema : List String) (ops : List SyncOperation)
    (r r' : Row) (j : Nat) (hlen : r.length = r'.length)
    (hid : ∀ i, colIdx schema "id" = some i → r'.get? i = r.get? i) :
    (applyRowOps schema ops r').get? j = (applyRowOps schema ops r).get? j ∨
      ((applyRowOps schema ops r').get? j = r'.get? j ∧
       (applyRowOps schema ops r).get? j = r.get? j) := by
  induction ops generalizing r r' with
  | nil => exact Or.inr ⟨rfl, rfl⟩
  | cons op rest ih =>
    simp only [applyRowOps, List.foldl_cons] at ih ⊢
    have hlen2 : (rowTransform schema op r).length = (rowTransform schema op r').length := by
      rw [rowTransform_length, rowTransform_length, hlen]
    have hid2 : ∀ i, colIdx schema "id" = some i →
        (rowTransform schema op r').get? i = (rowTransform schema op r).get? i := by
      intro i hi
      have hgi := colIdx_get schema "id" i hi
      rw [rowTransform_preserves_id schema op r' i hgi,
        rowTransform_preserves_id schema op r i hgi]
      exact hid i hi
    have step := ih (rowTransform schema op r) (rowTransform schema op r') hlen2 hid2
    rcases step with h | ⟨h1, h2⟩
    · exact Or.inl h
    · rcases rowTransform_cell_char schema op r r' j hlen hid with hs | ⟨hs1, hs2⟩
      · left
        rw [h1, h2, hs]
      · right
        exact ⟨h1.trans hs1, h2.trans hs2⟩

/-- Replaying a batch over a main-table row is idempotent. -/
theorem applyRowOps_replay (schema : List String) (ops : List SyncOperation) (r : Row) :
    applyRowOps schema ops (applyRowOps schema ops r) = applyRowOps schema ops r := by
  have hlen : r.length = (applyRowOps schema ops r).length :=
    (applyRowOps_length schema ops r).symm
  have hid : ∀ i, colIdx schema "id" = some i →
      (applyRowOps schema ops r).get? i = r.get? i := by
    intro i hi
    exact applyRowOps_preserves_id schema ops r i (colIdx_get schema "id" i hi)
  apply List.ext_get?
  intro j
  rcases applyRowOps_cell_char schema ops r (applyRowOps schema ops r) j hlen hid with
    h | ⟨h1, h2⟩
  · exact h
  · rw [h1]

/-- Looking up a key just replaced yields the new value. -/
theorem lookupAssoc_setAssoc_self {β : Type} (l : List (String × β)) (k : String)
    (v w : β) (h : lookupAssoc l k = some v) :
    lookupAssoc (setAssoc l k w) k = some w := by
  induction l with
  | nil => simp [lookupAssoc] at h
  | cons p ps ih =>
    cases p with
    | mk a b =>
      by_cases ha : a = k
      · simp [lookupAssoc, setAssoc, ha]
      · simp only [lookupAssoc, setAssoc, if_neg ha] at h ⊢
        exact ih h

/-- Replacing the same key twice keeps only the last value. -/
theorem setAssoc_setAssoc {β : Type} (l : List (String × β)) (k : String) (v w : β) :
    setAssoc (setAssoc l k v) k w = setAssoc l k w := by
  induction l with
  | nil => simp [setAssoc]
  | cons p ps ih =>
    cases p with
    | mk a b =>
      by_cases ha : a = k
      · simp [setAssoc, ha]
      · simp [setAssoc, ha, ih]

/-- Replacing a key by the value it already holds is the identity. -/
theorem setAssoc_lookup_self {β : Type} (l : List (String × β)) (k : String) (v : β)
    (h : lookupAssoc l k = some v) : setAssoc l k v = l := by
  induction l with
  | nil => simp [lookupAssoc] at h
  | cons p ps ih =>
    cases p with
    | mk a b =>
      by_cases ha : a = k
      · subst ha
        simp only [lookupAssoc, if_pos rfl] at h
        cases h
        simp [setAssoc]
      · simp only [lookupAssoc, if_neg ha] at h
        simp [setAssoc, ha, ih h]

/-- A successful `Update` statement pair maps every main-table row through `rowTransform` and every metadata row through `metaTransform`. -/
theorem applyOne_char_update (st : StoreState) (tn : String) (data : JValue)
    (md : SyncMetadata) (st₂ : StoreState)
    (h : applyOne st tn (SyncOperation.update data md) = .ok st₂) :
    ∃ t, lookupAssoc st.tables tn = some t ∧
      st₂ = ⟨setAssoc st.tables tn
              { t with rows := t.rows.map (rowTransform t.schema (SyncOperation.update data md)) },
             st.sync_metadata.map (metaTransform tn (SyncOperation.update data md))⟩ := by
  simp only [applyOne] at h
  split at h
  · exact Except.noConfusion h
  next fields hobj =>
    split at h
    · exact Except.noConfusion h
    next t hl =>
      split at h
      · split at h
        · exact Except.noConfusion h
        next i hidx =>
          have hst := Except.ok.inj h
          subst hst
          refine ⟨t, hl, ?_⟩
          have hrows : ∀ r : Row,
              (if r.get? i = some (SqlVal.str md.id) then
                updateRowCols t.schema
                  ((fields.map Prod.fst).filter (fun k => !(k == "id"))) fields r
              else r) = rowTransform t.schema (SyncOperation.update data md) r := by
            intro r
            simp [rowTransform, hobj, hidx]
          have hmeta : ∀ m : MetaRow,
              (if m.table_name = tn ∧ m.record_id = md.id then
                { m with last_sync_at := some md.updated_at, remote_version := md.version }
              else m) = metaTransform tn (SyncOperation.update data md) m := by
            intro m
            simp [metaTransform]
          simp only [hrows, hmeta]
      · exact Except.noConfusion h

/-- A successful `Delete` statement pair maps every main-table row through `rowTransform` and every metadata row through `metaTransform`. -/
theorem applyOne_char_delete (st : StoreState) (tn : String) (id : String)
    (md : SyncMetadata) (st₂ : StoreState)
    (h : applyOne st tn (SyncOperation.delete id md) = .ok st₂) :
    ∃ t, lookupAssoc st.tables tn = some t ∧
      st₂ = ⟨setAssoc st.tables tn
              { t with rows := t.rows.map (rowTransform t.schema (SyncOperation.delete id md)) },
             st.sync_metadata.map (metaTransform tn (SyncOperation.delete id md))⟩ := by
  simp only [applyOne] at h
  split at h
  · exact Except.noConfusion h
  next t hl =>
    split at h
    next di i hdt hidx =>
      have hst := Except.ok.inj h
      subst hst
      refine ⟨t, hl, ?_⟩
      have hrows : ∀ r : Row,
          (if r.get? i = some (SqlVal.str id) then
            r.set di (match md.deleted_at with
              | some ts => SqlVal.time ts
              | none => SqlVal.null)
          else r) = rowTransform t.schema (SyncOperation.delete id md) r := by
        intro r
        simp [rowTransform, hdt, hidx]
      have hmeta : ∀ m : MetaRow,
          (if m.table_name = tn ∧ m.record_id = id then
            { m with last_sync_at := md.deleted_at, is_deleted := true }
          else m) = metaTransform tn (SyncOperation.delete id md) m := by
        intro m
        simp [metaTransform]
      simp only [hrows, hmeta]
    next hmiss =>
      exact Except.noConfusion h

/-- A successful `Update` or `Delete` leaves the table's schema unchanged. -/
theorem applyOne_schema (st st₂ : StoreState) (tn : String) (op : SyncOperation)
    (hop : ∀ data md, op ≠ SyncOperation.create data md)
    (h : applyOne st tn op = .ok st₂) :
    (lookupAssoc st₂.tables tn).map Table.schema
      = (lookupAssoc st.tables tn).map Table.schema := by
  cases op with
  | create data md => exact absurd rfl (hop data md)
  | update data md =>
    obtain ⟨t, hl, rfl⟩ := applyOne_char_update st tn data md st₂ h
    rw [show (⟨setAssoc st.tables tn
        { t with rows := t.rows.map (rowTransform t.schema (SyncOperation.update data md)) },
        st.sync_metadata.map (metaTransform tn (SyncOperation.update data md))⟩ :
          StoreState).tables = setAssoc st.tables tn
        { t with rows := t.rows.map (rowTransform t.schema (SyncOperation.update data md)) }
      from rfl]
    rw [lookupAssoc_setAssoc_self _ _ t _ hl, hl]
    rfl
  | delete id md =>
    obtain ⟨t, hl, rfl⟩ := applyOne_char_delete st tn id md st₂ h
    rw [show (⟨setAssoc st.tables tn
        { t with rows := t.rows.map (rowTransform t.schema (SyncOperation.delete id md)) },
        st.sync_metadata.map (metaTransform tn (SyncOperation.delete id md))⟩ :
          StoreState).tables = setAssoc st.tables tn
        { t with rows := t.rows.map (rowTransform t.schema (SyncOperation.delete id md)) }
      from rfl]
    rw [lookupAssoc_setAssoc_self _ _ t _ hl, hl]
    rfl

/-- Whether an `Update` or `Delete` succeeds depends only on the operation and the table's schema, so success transfers to any state presenting the same schema. -/
theorem applyOne_success (st st₃ : StoreState) (tn : String) (op : SyncOperation)
    (hop : ∀ data md, op ≠ SyncOperation.create data md)
    (st₂ : StoreState) (h : applyOne st tn op = .ok st₂)
    (hschema : (lookupAssoc st₃.tables tn).map Table.schema
      = (lookupAssoc st.tables tn).map Table.schema) :
    ∃ u, applyOne st₃ tn op = .ok u := by
  cases op with
  | create data md => exact absurd rfl (hop data md)
  | update data md =>
    simp only [applyOne] at h ⊢
    split at h
    · exact Except.noConfusion h
    next fields hobj =>
      split at h
      · exact Except.noConfusion h
      next t hl =>
        split at h
        next hall =>
          split at h
          · exact Except.noConfusion h
          next i hidx =>
            rw [hl] at hschema
            cases hl3 : lookupAssoc st₃.tables tn with
            | none => rw [hl3] at hschema; exact Option.noConfusion hschema
            | some t₃ =>
              rw [hl3] at hschema
              have hsch : t₃.schema = t.schema := Option.some.inj hschema
              simp only [hobj, hl3, hsch, hidx]
              rw [if_pos hall]
              exact ⟨_, rfl⟩
        next hall =>
          exact Except.noConfusion h
  | delete id md =>
    simp only [applyOne] at h ⊢
    split at h
    · exact Except.noConfusion h
    next t hl =>
      split at h
      next di i hdt hidx =>
        rw [hl] at hschema
        cases hl3 : lookupAssoc st₃.tables tn with
        | none => rw [hl3] at hschema; exact Option.noConfusion hschema
        | some t₃ =>
          rw [hl3] at hschema
          have hsch : t₃.schema = t.schema := Option.some.inj hschema
          simp [hl3, hsch, hdt, hidx]
      next hmiss =>
        exact Except.noConfusion h

/-- A successful `Create`-free batch acts on the store as per-row and per-metadata-row transform maps on the targeted table. -/
theorem apply_changes_shape (tn : String) (ops : List SyncOperation) :
    ∀ st st' : StoreState,
    (∀ data md, SyncOperation.create data md ∉ ops) →
    SqliteLocalDataStore.apply_changes st tn ops = .ok st' →
    st'.sync_metadata = st.sync_metadata.map (applyMetaOps tn ops) ∧
    ((ops = [] ∧ st' = st) ∨
     ∃ t, lookupAssoc st.tables tn = some t ∧
       st'.tables = setAssoc st.tables tn
         { t with rows := t.rows.map (applyRowOps t.schema ops) }) := by
  induction ops with
  | nil =>
    intro st st' _ h
    have hst := Except.ok.inj h
    subst hst
    refine ⟨?_, Or.inl ⟨rfl, rfl⟩⟩
    rw [show applyMetaOps tn [] = fun m => m from rfl]
    rw [List.map_id']
  | cons op rest ih =>
    intro st st' hcf h
    have hop : ∀ data md, op ≠ SyncOperation.create data md := by
      intro data md heq
      exact hcf data md (heq ▸ List.mem_cons_self op rest)
    have hcfr : ∀ data md, SyncOperation.create data md ∉ rest := by
      intro data md hmem
      exact hcf data md (List.mem_cons_of_mem op hmem)
    have hexp : SqliteLocalDataStore.apply_changes st tn (op :: rest)
        = match applyOne st tn op with
          | .error e => .error e
          | .ok st₁ => SqliteLocalDataStore.apply_changes st₁ tn rest := rfl
    rw [hexp] at h
    cases h1 : applyOne st tn op with
    | error e => rw [h1] at h; exact Except.noConfusion h
    | ok st₁ =>
      rw [h1] at h
      obtain ⟨hmeta1, hrest⟩ := ih st₁ st' hcfr h
      have hchar : ∃ t, lookupAssoc st.tables tn = some t ∧
          st₁ = ⟨setAssoc st.tables tn
                  { t with rows := t.rows.map (rowTransform t.schema op) },
                 st.sync_metadata.map (metaTransform tn op)⟩ := by
        cases op with
        | create data md => exact absurd rfl (hop data md)
        | update data md => exact applyOne_char_update st tn data md st₁ h1
        | delete id md => exact applyOne_char_delete st tn id md st₁ h1
      obtain ⟨t, hl, hst₁⟩ := hchar
      constructor
      · rw [hmeta1, hst₁]
        show (st.sync_metadata.map (metaTransform tn op)).map (applyMetaOps tn rest)
          = st.sync_metadata.map (applyMetaOps tn (op :: rest))
        rw [List.map_map]
        rfl
      · right
        refine ⟨t, hl, ?_⟩
        rcases hrest with ⟨hre, hs⟩ | ⟨t₂, hl₂, htab⟩
        · subst hs
          rw [hst₁]
          subst hre
          rfl
        · rw [hst₁] at hl₂ htab
          have hl₂' : lookupAssoc (setAssoc st.tables tn
              { t with rows := t.rows.map (rowTransform t.schema op) }) tn
              = some { t with rows := t.rows.map (rowTransform t.schema op) } :=
            lookupAssoc_setAssoc_self _ _ _ _ hl
          rw [show (⟨setAssoc st.tables tn
              { t with rows := t.rows.map (rowTransform t.schema op) },
              st.sync_metadata.map (metaTransform tn op)⟩ : StoreState).tables
            = setAssoc st.tables tn
              { t with rows := t.rows.map (rowTransform t.schema op) } from rfl] at hl₂ htab
          rw [hl₂'] at hl₂
          have ht₂ := (Option.some.inj hl₂).symm
          subst ht₂
          rw [htab, setAssoc_setAssoc]
          refine congrArg (setAssoc st.tables tn) ?_
          have hrows : (t.rows.map (rowTransform t.schema op)).map (applyRowOps t.schema rest)
              = t.rows.map (applyRowOps t.schema (op :: rest)) := by
            rw [List.map_map]
            rfl
          show Table.mk t.schema ((t.rows.map (rowTransform t.schema op)).map (applyRowOps t.schema rest))
            = Table.mk t.schema (t.rows.map (applyRowOps t.schema (op :: rest)))
          rw [hrows]

/-- A successful `Create`-free batch succeeds again from any state presenting the same schema for the targeted table. -/
theorem apply_changes_success (tn : String) (ops : List SyncOperation) :
    ∀ st st₃ st' : StoreState,
    (∀ data md, SyncOperation.create data md ∉ ops) →
    SqliteLocalDataStore.apply_changes st tn ops = .ok st' →
    (lookupAssoc st₃.tables tn).map Table.schema
      = (lookupAssoc st.tables tn).map Table.schema →
    ∃ u, SqliteLocalDataStore.apply_changes st₃ tn ops = .ok u := by
  induction ops with
  | nil =>
    intro st st₃ st' _ _ _
    exact ⟨st₃, rfl⟩
  | cons op rest ih =>
    intro st st₃ st' hcf h hschema
    have hop : ∀ data md, op ≠ SyncOperation.create data md := by
      intro data md heq
      exact hcf data md (heq ▸ List.mem_cons_self op rest)
    have hcfr : ∀ data md, SyncOperation.create data md ∉ rest := by
      intro data md hmem
      exact hcf data md (List.mem_cons_of_mem op hmem)
    have hexp : ∀ s : StoreState, SqliteLocalDataStore.apply_changes s tn (op :: rest)
        = match applyOne s tn op with
          | .error e => .error e
          | .ok s₁ => SqliteLocalDataStore.apply_changes s₁ tn rest := fun s => rfl
    rw [hexp] at h
    cases h1 : applyOne st tn op with
    | error e => rw [h1] at h; exact Except.noConfusion h
    | ok st₁ =>
      rw [h1] at h
      obtain ⟨u₁, hu₁⟩ := applyOne_success st st₃ tn op hop st₁ h1 hschema
      have hs1 : (lookupAssoc st₁.tables tn).map Table.schema
          = (lookupAssoc st.tables tn).map Table.schema :=
        applyOne_schema st st₁ tn op hop h1
      have hs3 : (lookupAssoc u₁.tables tn).map Table.schema
          = (lookupAssoc st₃.tables tn).map Table.schema :=
        applyOne_schema st₃ u₁ tn op hop hu₁
      obtain ⟨u, hu⟩ := ih st₁ u₁ st' hcfr h
        (by rw [hs3, hschema, ← hs1])
      refine ⟨u, ?_⟩
      rw [hexp, hu₁]
      exact hu

/-! ## Claim C2 -/

/-- C2 counterexample: `Create` is a plain `INSERT INTO`, not an upsert.
Applying `[Create {id: "b1", title: "T"}]` to an empty `books` table
succeeds once, and the second application of the same list fails with a
UNIQUE-constraint database error on the `id TEXT PRIMARY KEY` — refuting
"no insert fails on a second application". -/
theorem apply_changes_second_create_fails :
    SqliteLocalDataStore.apply_changes
      ⟨[("books", ⟨["id", "title"], []⟩)], []⟩ "books"
      [SyncOperation.create (.obj [("id", .str "b1"), ("title", .str "T")])
        ⟨"b1", 0, 10, none, 1⟩]
      = .ok ⟨[("books", ⟨["id", "title"],
          [[SqlVal.json (.str "b1"), SqlVal.json (.str "T")]]⟩)],
          [⟨"books", "b1", some 10, 1, 1, false⟩]⟩ ∧
    SqliteLocalDataStore.apply_changes
      ⟨[("books", ⟨["id", "title"],
          [[SqlVal.json (.str "b1"), SqlVal.json (.str "T")]]⟩)],
          [⟨"books", "b1", some 10, 1, 1, false⟩]⟩ "books"
      [SyncOperation.create (.obj [("id", .str "b1"), ("title", .str "T")])
        ⟨"b1", 0, 10, none, 1⟩]
      = .error (.database "UNIQUE constraint failed: books.id") := by
  decide

/-- C2 (amended): `apply_changes` is idempotent for lists of `Update` and
`Delete` operations — both are in-place writes keyed by `id`, no-ops on
rows that do not match — so a second application of a successfully
applied `Create`-free list returns the same final store state.  `Create`
is excluded: it is a plain `INSERT`, not an upsert, and its second
application fails (see the counterexample). -/
theorem apply_changes_idempotent_without_creates (st : StoreState) (tn : String)
    (ops : List SyncOperation) (st' : StoreState)
    (hcf : ∀ data md, SyncOperation.create data md ∉ ops)
    (h : SqliteLocalDataStore.apply_changes st tn ops = .ok st') :
    SqliteLocalDataStore.apply_changes st' tn ops = .ok st' := by
  obtain ⟨hmeta, hshape⟩ := apply_changes_shape tn ops st st' hcf h
  rcases hshape with ⟨hnil, rfl⟩ | ⟨t, hl, htab⟩
  · subst hnil
    rfl
  · have hl' : lookupAssoc st'.tables tn
        = some { t with rows := t.rows.map (applyRowOps t.schema ops) } := by
      rw [htab]
      exact lookupAssoc_setAssoc_self _ _ _ _ hl
    have hschema : (lookupAssoc st'.tables tn).map Table.schema
        = (lookupAssoc st.tables tn).map Table.schema := by
      rw [hl', hl]
      rfl
    obtain ⟨u, hu⟩ := apply_changes_success tn ops st st' st' hcf h hschema
    obtain ⟨hmeta2, hshape2⟩ := apply_changes_shape tn ops st' u hcf hu
    have humeta : u.sync_metadata = st'.sync_metadata := by
      rw [hmeta2, hmeta, List.map_map]
      exact List.map_congr_left (fun m _ => applyMetaOps_replay tn ops m)
    have hutab : u.tables = st'.tables := by
      rcases hshape2 with ⟨hnil2, rfl⟩ | ⟨t₂, hl₂, htab₂⟩
      · rfl
      · rw [hl'] at hl₂
        have hteq : ({ t with rows := t.rows.map (applyRowOps t.schema ops) } : Table) = t₂ :=
          Option.some.inj hl₂
        rw [← hteq] at htab₂
        have hT : ({ t with rows := t.rows.map (applyRowOps t.schema ops) } : Table)
            = Table.mk
                ({ t with rows := t.rows.map (applyRowOps t.schema ops) } : Table).schema
                ((({ t with rows := t.rows.map (applyRowOps t.schema ops) } : Table).rows).map
                  (applyRowOps
                    ({ t with rows := t.rows.map (applyRowOps t.schema ops) } : Table).schema
                    ops)) := by
          show Table.mk t.schema (t.rows.map (applyRowOps t.schema ops))
            = Table.mk t.schema ((t.rows.map (applyRowOps t.schema ops)).map
                (applyRowOps t.schema ops))
          rw [List.map_map]
          exact congrArg (Table.mk t.schema)
            (List.map_congr_left (fun r _ => applyRowOps_replay t.schema ops r)).symm
        rw [htab₂, ← hT]
        exact setAssoc_lookup_self _ _ _ hl'
    have hust : u = st' := by
      cases u
      cases st'
      simp_all
    rw [hust] at hu
    exact hu

/-- C2 witness: one `Update` of `b1`'s title applied to a one-row store,
re-applied onto its own result. -/
theorem apply_changes_idempotent_without_creates_witness :
    (∀ data md, SyncOperation.create data md ∉
      [SyncOperation.update (.obj [("id", .str "b1"), ("title", .str "U")])
        ⟨"b1", 0, 9, none, 2⟩]) ∧
    SqliteLocalDataStore.apply_changes
      ⟨[("books", ⟨["id", "title", "deleted_at"],
          [[SqlVal.json (.str "b1"), SqlVal.json (.str "T"), SqlVal.null]]⟩)],
          [⟨"books", "b1", some 5, 1, 1, false⟩]⟩ "books"
      [SyncOperation.update (.obj [("id", .str "b1"), ("title", .str "U")])
        ⟨"b1", 0, 9, none, 2⟩]
      = .ok ⟨[("books", ⟨["id", "title", "deleted_at"],
          [[SqlVal.json (.str "b1"), SqlVal.json (.str "T"), SqlVal.null]]⟩)],
          [⟨"books", "b1", some 9, 1, 2, false⟩]⟩ ∧
    SqliteLocalDataStore.apply_changes
      ⟨[("books", ⟨["id", "title", "deleted_at"],
          [[SqlVal.json (.str "b1"), SqlVal.json (.str "T"), SqlVal.null]]⟩)],
          [⟨"books", "b1", some 9, 1, 2, false⟩]⟩ "books"
      [SyncOperation.update (.obj [("id", .str "b1"), ("title", .str "U")])
        ⟨"b1", 0, 9, none, 2⟩]
      = .ok ⟨[("books", ⟨["id", "title", "deleted_at"],
          [[SqlVal.json (.str "b1"), SqlVal.json (.str "T"), SqlVal.null]]⟩)],
          [⟨"books", "b1", some 9, 1, 2, false⟩]⟩ :=
  ⟨fun data md hmem => by simp at hmem,
   by decide,
   apply_changes_idempotent_without_creates
     ⟨[("books", ⟨["id", "title", "deleted_at"],
         [[SqlVal.json (.str "b1"), SqlVal.json (.str "T"), SqlVal.null]]⟩)],
         [⟨"books", "b1", some 5, 1, 1, false⟩]⟩
     "books"
     [SyncOperation.update (.obj [("id", .str "b1"), ("title", .str "U")])
       ⟨"b1", 0, 9, none, 2⟩]
     ⟨[("books", ⟨["id", "title", "deleted_at"],
         [[SqlVal.json (.str "b1"), SqlVal.json (.str "T"), SqlVal.null]]⟩)],
         [⟨"books", "b1", some 9, 1, 2, false⟩]⟩
     (fun data md hmem => by simp at hmem) (by decide)⟩

theorem twoWayApplyRemote_events {σ : Type} (L : LocalStore σ) (tn : String) (ls : σ)
    (rc : List (JValue × SyncMetadata)) (u : σ × Nat × List SyncEvent)
    (h : twoWayApplyRemote L tn ls rc = .ok u) :
    u.2.2 = [] ∨ u.2.2 = [SyncEvent.applyChanges] := by
  unfold twoWayApplyRemote at h
  split at h
  · cases Except.ok.inj h
    exact Or.inl rfl
  · dsimp only at h
    split at h
    · exact Except.noConfusion h
    · cases Except.ok.inj h
      exact Or.inr rfl

theorem twoWayPushLocal_events {ρ : Type} (R : RemoteSource ρ) (tn : String)
    (nowRace : Timestamp) (rs : ρ) (lc : List SyncOperation)
    (u : ρ × Nat × Nat × List SyncEvent)
    (h : twoWayPushLocal R tn nowRace rs lc = .ok u) :
    u.2.2.2 = [] ∨ u.2.2.2 = [SyncEvent.fetchChanges] ∨
      u.2.2.2 = [SyncEvent.fetchChanges, SyncEvent.pushChanges] := by
  unfold twoWayPushLocal at h
  split at h
  · cases Except.ok.inj h
    exact Or.inl rfl
  · split at h
    · exact Except.noConfusion h
    · dsimp only at h
      split at h
      · cases Except.ok.inj h
        exact Or.inr (Or.inl rfl)
      · split at h
        · exact Except.noConfusion h
        · cases Except.ok.inj h
          exact Or.inr (Or.inr rfl)

/-- Claim C4 (corrected).  The watermark is NOT monotone over sync-pass
operations: `get_last_sync_time` is `MAX(last_sync_at)` over every
`sync_metadata` row of the table, and `apply_changes` rewrites the
per-record rows, so replaying an Update whose `updated_at` is older than
the current maximum lowers the returned value mid-pass (counterexample
`watermark_can_decrease`).  What does hold: (a) `set_last_sync_time t`
never leaves the observable watermark below `t`, and (b) in a successful
Two-Way pass the watermark write is the very last store/remote
interaction and happens exactly once — after the remote apply and the
local push, never before. -/
theorem watermark_set_floor_and_two_way_write_last :
    (∀ (st : StoreState) (tn : String) (t : Timestamp) (st' : StoreState),
      SqliteLocalDataStore.set_last_sync_time st tn t = .ok st' →
      ∃ m, SqliteLocalDataStore.get_last_sync_time st' tn = .ok (some m) ∧ t ≤ m) ∧
    (∀ (σ ρ : Type) (L : LocalStore σ) (R : RemoteSource ρ) (tn : String)
      (nowRace nowMark : Timestamp) (dur : Nat) (ls : σ) (rs : ρ)
      (res : SyncSummary × σ × ρ × List SyncEvent),
      TwoWaySyncStrategy.sync_table L R tn nowRace nowMark dur ls rs = .ok res →
      res.2.2.2.getLast? = some SyncEvent.setLastSyncTime ∧
      res.2.2.2.count SyncEvent.setLastSyncTime = 1) := by
  constructor
  · intro st tn t st' h
    have hst := Except.ok.inj h
    subst hst
    simp only [SqliteLocalDataStore.get_last_sync_time]
    rw [List.filter_append, List.foldl_append]
    have hmarker : List.filter (fun m => m.table_name == tn)
        [MetaRow.mk tn "_sync_marker_" (some t) 1 1 false]
        = [MetaRow.mk tn "_sync_marker_" (some t) 1 1 false] := by
      simp
    rw [hmarker]
    cases hacc : List.foldl (fun acc m => optMaxTime acc m.last_sync_at) none
        (List.filter (fun m => m.table_name == tn)
          (List.filter (fun m => !(m.table_name == tn && m.record_id == "_sync_marker_"))
            st.sync_metadata)) with
    | none => exact ⟨t, rfl, le_refl t⟩
    | some a =>
      refine ⟨max a t, ?_, le_max_right a t⟩
      rfl
  · intro σ ρ L R tn nowRace nowMark dur ls rs res h
    unfold TwoWaySyncStrategy.sync_table at h
    split at h
    · exact Except.noConfusion h
    split at h
    · exact Except.noConfusion h
    split at h
    · exact Except.noConfusion h
    split at h
    · exact Except.noConfusion h
    next ls1 processed1 ev1 hstep1 =>
      split at h
      · exact Except.noConfusion h
      next rs1 processed2 conflictCount ev2 hstep2 =>
        split at h
        · exact Except.noConfusion h
        next ls2 hset =>
          have hres := Except.ok.inj h
          subst hres
          have hev1 := twoWayApplyRemote_events L tn ls _ _ hstep1
          have hev2 := twoWayPushLocal_events R tn nowRace rs _ _ hstep2
          simp only at hev1 hev2
          rcases hev1 with h1 | h1 <;> rcases hev2 with h2 | h2 | h2 <;>
            rw [h1, h2] <;> exact ⟨rfl, rfl⟩

/-- Claim C4, counterexample to the stated monotonicity: a Create with
`updated_at = 100` followed by an Update of the same record with
`updated_at = 50` makes `get_last_sync_time` drop from `some 100` to
`some 50`. -/
theorem watermark_can_decrease :
    SqliteLocalDataStore.apply_changes booksEmpty "books" [c4op1] = Except.ok c4st1 ∧
    SqliteLocalDataStore.get_last_sync_time c4st1 "books" = Except.ok (some 100) ∧
    SqliteLocalDataStore.apply_changes c4st1 "books" [c4op2] = Except.ok c4st2 ∧
    SqliteLocalDataStore.get_last_sync_time c4st2 "books" = Except.ok (some 50) := by
  refine ⟨by decide, by decide, by decide, by decide⟩

/-- Witness for `watermark_set_floor_and_two_way_write_last`: part (a)
at a bare store with `t = 7`, part (b) at a concrete successful Two-Way
pass over `booksEmpty` and `emptyRemote`. -/
theorem watermark_set_floor_and_two_way_write_last_witness :
    (∃ m, SqliteLocalDataStore.get_last_sync_time c4markedStore "books"
        = Except.ok (some m) ∧ (7 : Timestamp) ≤ m) ∧
    (c4passResult.2.2.2.getLast? = some SyncEvent.setLastSyncTime ∧
     c4passResult.2.2.2.count SyncEvent.setLastSyncTime = 1) := by
  constructor
  · exact watermark_set_floor_and_two_way_write_last.1
      { tables := [], sync_metadata := [] } "books" 7 c4markedStore (by decide)
  · exact watermark_set_floor_and_two_way_write_last.2
      StoreState Unit sqliteLocalStore emptyRemote "books" 200 200 5
      booksEmpty () c4passResult (by decide)

/-- Attempt counting of the retry loop: `applyWithRetry` makes at most
`remaining + 1` attempts. -/
theorem applyWithRetry_attempts {σ : Type} (L : LocalStore σ) (tn : String)
    (ops : List SyncOperation) : ∀ (remaining : Nat) (s : σ),
    (applyWithRetry L tn ops remaining s).2 ≤ remaining + 1 := by
  intro remaining
  induction remaining with
  | zero =>
      intro s
      unfold applyWithRetry
      cases h : L.apply_changes s tn ops <;> simp [h]
  | succ r ih =>
      intro s
      unfold applyWithRetry
      cases h : L.apply_changes s tn ops with
      | ok s₂ => simp [h]
      | error e =>
          simp only [h]
          have := ih s
          omega

/-- Against `badRemote` the pagination loop never returns, whatever the
fuel, offset or accumulated summary. -/
theorem badRemote_syncLoop_none (bs rc : Nat) (tn : String) (ls : Option Timestamp) :
    ∀ (fuel offset : Nat) (acc : SyncSummary),
    IncrementalSyncStrategy.syncLoop unitLocal badRemote bs rc tn ls fuel offset () () acc
      = none := by
  intro fuel
  induction fuel with
  | zero => intro offset acc; rfl
  | succ f ih =>
      intro offset acc
      unfold IncrementalSyncStrategy.syncLoop
      simp only [badRemote, unitLocal, applyWithRetry]
      exact ih (offset + bs) _

/-- When the page at `offset + k * bs` is empty, the pagination loop
returns within `k + 1` iterations (earlier pages may stop it even
sooner, by an error or an earlier empty page). -/
theorem syncLoop_halts_on_empty_page {σ ρ : Type} (L : LocalStore σ)
    (R : RemoteSource ρ) (bs rc : Nat) (tn : String) (ls : Option Timestamp) :
    ∀ (k offset : Nat) (s : σ) (r : ρ) (acc : SyncSummary),
    R.fetch_changes r tn ls (some bs) (some (offset + k * bs)) = Except.ok [] →
    IncrementalSyncStrategy.syncLoop L R bs rc tn ls (k + 1) offset s r acc ≠ none := by
  intro k
  induction k with
  | zero =>
      intro offset s r acc h
      rw [Nat.zero_mul, Nat.add_zero] at h
      unfold IncrementalSyncStrategy.syncLoop
      rw [h]
      simp
  | succ n ih =>
      intro offset s r acc h
      have h₂ : R.fetch_changes r tn ls (some bs) (some (offset + bs + n * bs))
          = Except.ok [] := by
        rw [show offset + bs + n * bs = offset + (n + 1) * bs by ring]
        exact h
      unfold IncrementalSyncStrategy.syncLoop
      cases hf : R.fetch_changes r tn ls (some bs) (some offset) with
      | error e => simp
      | ok batch =>
          by_cases hb : batch.isEmpty
          · simp [hb]
          · simp only [hb, if_neg, Bool.false_eq_true, not_false_eq_true]
            cases hres : (applyWithRetry L tn
                (batch.map fun p => SyncOperation.create p.1 p.2) rc s).1 with
            | ok s₂ => exact ih (offset + bs) s₂ r _ h₂
            | error e => exact ih (offset + bs) s r _ h₂

/-- Claim C5, counterexample to the hard iteration cap: against a remote
that answers every page request with the same non-empty page, the Rust
`loop` of `IncrementalSyncStrategy::sync_table` never returns — no fuel
suffices, so the run does not terminate.  The per-page retries ARE
bounded (see the claim theorem); the pagination itself has no cap. -/
theorem incremental_unbounded_pagination :
    (∀ fuel, IncrementalSyncStrategy.sync_table unitLocal badRemote 100 3 "books" 5
        fuel () () = none) ∧
    ¬ IncrementalSyncStrategy.terminatesOn unitLocal badRemote 100 3 "books" 5 () () := by
  have hall : ∀ fuel, IncrementalSyncStrategy.sync_table unitLocal badRemote 100 3
      "books" 5 fuel () () = none := by
    intro fuel
    unfold IncrementalSyncStrategy.sync_table
    rw [show LocalStore.get_last_sync_time unitLocal () "books" = Except.ok none
      from rfl]
    dsimp only
    rw [badRemote_syncLoop_none 100 3 "books" none fuel 0]
  exact ⟨hall, fun ⟨fuel, hf⟩ => hf (hall fuel)⟩

/-- Claim C5 (corrected).  The per-page retry loop is bounded: for every
local store and batch, `applyWithRetry` makes at most `retry_count + 1`
attempts at `apply_changes`.  But there is no hard cap on pagination
iterations — the loop runs forever against a remote whose every page is
non-empty (counterexample `incremental_unbounded_pagination`); it
terminates exactly when some page comes back empty or a fetch errors
out: if the page at offset `k * batch_size` is empty, the pass returns
within `k + 1` iterations. -/
theorem incremental_retry_bound_and_empty_page_termination :
    (∀ (σ : Type) (L : LocalStore σ) (tn : String) (ops : List SyncOperation)
        (remaining : Nat) (s : σ),
      (applyWithRetry L tn ops remaining s).2 ≤ remaining + 1) ∧
    (∀ (σ ρ : Type) (L : LocalStore σ) (R : RemoteSource ρ) (bs rc dur : Nat)
        (tn : String) (s : σ) (r : ρ) (k : Nat) (ls : Option Timestamp),
      L.get_last_sync_time s tn = Except.ok ls →
      R.fetch_changes r tn ls (some bs) (some (k * bs)) = Except.ok [] →
      IncrementalSyncStrategy.sync_table L R bs rc tn dur (k + 1) s r ≠ none) := by
  constructor
  · intro σ L tn ops remaining s
    exact applyWithRetry_attempts L tn ops remaining s
  · intro σ ρ L R bs rc dur tn s r k ls hls hf hnone
    have hf₀ : R.fetch_changes r tn ls (some bs) (some (0 + k * bs)) = Except.ok [] := by
      rw [Nat.zero_add]; exact hf
    have hloop := syncLoop_halts_on_empty_page L R bs rc tn ls k 0 s r
      { table_name := tn, remote_changes := 0, local_changes := 0, conflicts := 0,
        resolved := 0, errors := [], sync_duration_ms := 0 } hf₀
    unfold IncrementalSyncStrategy.sync_table at hnone
    rw [hls] at hnone
    dsimp only at hnone
    cases hl : IncrementalSyncStrategy.syncLoop L R bs rc tn ls (k + 1) 0 s r
        { table_name := tn, remote_changes := 0, local_changes := 0, conflicts := 0,
          resolved := 0, errors := [], sync_duration_ms := 0 } with
    | none => exact hloop hl
    | some res =>
        rw [hl] at hnone
        cases res with
        | error e => simp at hnone
        | ok p => simp at hnone

/-- Witness for `incremental_retry_bound_and_empty_page_termination`:
the retry bound at an empty batch over the unit store, and termination
in one iteration against `emptyRemote`, whose first page is empty. -/
theorem incremental_retry_bound_and_empty_page_termination_witness :
    (applyWithRetry unitLocal "books" [] 3 ()).2 ≤ 3 + 1 ∧
    IncrementalSyncStrategy.sync_table unitLocal emptyRemote 100 3 "books" 5
      1 () () ≠ none := by
  constructor
  · exact incremental_retry_bound_and_empty_page_termination.1 Unit unitLocal
      "books" [] 3 ()
  · exact incremental_retry_bound_and_empty_page_termination.2 Unit Unit unitLocal
      emptyRemote 100 3 5 "books" () () 0 none rfl rfl

/-- Claim C10 (confirmed).  A successful `TwoWaySyncStrategy::sync_table`
always reports `remote_changes = 0`, `resolved = 0` and an empty
`errors` list; the operations applied locally from the remote are
counted, together with the safe local changes pushed, into
`local_changes` (strategy.rs lines 82-90 build the summary from the two
`processed` counters), and `conflicts` carries the race-conflict count.
When the fetched remote batch is non-empty, the count applied locally is
exactly the batch's length. -/
theorem two_way_summary_counts {σ ρ : Type} (L : LocalStore σ) (R : RemoteSource ρ)
    (tn : String) (nowRace nowMark : Timestamp) (dur : Nat) (ls : σ) (rs : ρ)
    (last_sync : Option Timestamp) (local_changes : List SyncOperation)
    (remote_changes : List (JValue × SyncMetadata)) (ls1 : σ) (p1 : Nat)
    (ev1 : List SyncEvent) (rs1 : ρ) (p2 c : Nat) (ev2 : List SyncEvent)
    (res : SyncSummary × σ × ρ × List SyncEvent)
    (h1 : L.get_last_sync_time ls tn = Except.ok last_sync)
    (h2 : L.get_changes ls tn last_sync nowRace = Except.ok local_changes)
    (h3 : R.fetch_changes rs tn last_sync none none = Except.ok remote_changes)
    (h4 : twoWayApplyRemote L tn ls remote_changes = Except.ok (ls1, p1, ev1))
    (h5 : twoWayPushLocal R tn nowRace rs local_changes = Except.ok (rs1, p2, c, ev2))
    (hres : TwoWaySyncStrategy.sync_table L R tn nowRace nowMark dur ls rs
      = Except.ok res) :
    res.1.remote_changes = 0 ∧ res.1.resolved = 0 ∧ res.1.errors = [] ∧
    res.1.local_changes = p1 + p2 ∧ res.1.conflicts = c ∧
    (remote_changes ≠ [] → p1 = remote_changes.length) := by
  have hp1 : remote_changes ≠ [] → p1 = remote_changes.length := by
    intro hne
    unfold twoWayApplyRemote at h4
    rw [if_neg (by simpa using hne)] at h4
    dsimp only at h4
    cases hap : L.apply_changes ls tn
        (remote_changes.map fun p => SyncOperation.update p.1 p.2) with
    | error e => rw [hap] at h4; exact Except.noConfusion h4
    | ok ls₂ =>
        rw [hap] at h4
        have := Except.ok.inj h4
        have hp := congrArg (fun q => q.2.1) this
        simpa using hp.symm
  unfold TwoWaySyncStrategy.sync_table at hres
  rw [h1] at hres
  dsimp only at hres
  rw [h2] at hres
  dsimp only at hres
  rw [h3] at hres
  dsimp only at hres
  rw [h4] at hres
  dsimp only at hres
  rw [h5] at hres
  dsimp only at hres
  cases hset : L.set_last_sync_time ls1 tn nowMark with
  | error e => rw [hset] at hres; exact Except.noConfusion hres
  | ok ls2 =>
      rw [hset] at hres
      have := Except.ok.inj hres
      subst this
      exact ⟨rfl, rfl, rfl, rfl, rfl, hp1⟩

/-- Witness for `two_way_summary_counts` at the concrete pass of
`c4passResult`: empty local and remote change sets. -/
theorem two_way_summary_counts_witness :
    c4passResult.1.remote_changes = 0 ∧ c4passResult.1.resolved = 0 ∧
    c4passResult.1.errors = [] ∧ c4passResult.1.local_changes = 0 + 0 ∧
    c4passResult.1.conflicts = 0 ∧
    (([] : List (JValue × SyncMetadata)) ≠ [] → 0 = ([] : List (JValue × SyncMetadata)).length) := by
  exact two_way_summary_counts sqliteLocalStore emptyRemote "books" 200 200 5
    booksEmpty () none [] [] booksEmpty 0 [] () 0 0 []
    c4passResult rfl rfl rfl rfl rfl (by decide)

/-- Claim C3 (code bug).  On the clean-pull scenario — remote reports
exactly `{id: "b1", title: "A", updated_at: 100}`, the local `books`
table is empty with no pending changes, `Utc::now() = 200` — one
Two-Way pass succeeds but the local store still contains NO row for
`b1` (the remote record is replayed as an `Update ... WHERE id = ?`,
which matches nothing on an empty table; there is no insert path), and
`get_last_sync_time` returns the wall clock 200, not the record
timestamp `T1 = 100` the spec requires. -/
theorem two_way_clean_pull_inserts_nothing :
    TwoWaySyncStrategy.sync_table sqliteLocalStore c3remote "books" 200 200 5
        booksEmpty () = Except.ok c3result ∧
    (lookupAssoc c3result.2.1.tables "books").map Table.rows = some [] ∧
    SqliteLocalDataStore.get_last_sync_time c3result.2.1 "books"
      = Except.ok (some 200) ∧
    some (200 : Timestamp) ≠ some (100 : Timestamp) := by
  exact ⟨by decide, by decide, by decide, by decide⟩

/-- Claim C1 (code bug).  Even for a fresh engine (`is_syncing = false`)
that is online, with `books` registered and a strategy that succeeds
with `c1goodSummary`, `sync_all_tables` never invokes any strategy: it
sets `status.is_syncing` before calling `perform_all_tables_sync`, which
calls the guarded `self.sync_table` per table, so every per-table call
trips the guard it itself set.  The result is one zeroed summary per
table carrying the rendered `SyncInProgress` error, not the strategy's
summary, and an empty invocation list. -/
theorem sync_all_tables_self_trips_guard :
    (SyncEngine.sync_all_tables c1env c1st).1
      = Except.ok [{ table_name := "books", remote_changes := 0,
                     local_changes := 0, conflicts := 0, resolved := 0,
                     errors := ["Sync already in progress"],
                     sync_duration_ms := 0 }] ∧
    (SyncEngine.sync_all_tables c1env c1st).2.2 = [] ∧
    c1env.strategyResult "books" = Except.ok c1goodSummary ∧
    (SyncEngine.sync_all_tables c1env c1st).1 ≠ Except.ok [c1goodSummary] := by
  exact ⟨by decide, by decide, by decide, by decide⟩

/-- Claim C9, counterexample: a call that trips the `is_syncing` guard
returns with the flag still set — entered busy, `sync_table` errors with
`SyncInProgress` and leaves `status.is_syncing = true`, so it is not the
case that the flag is false after every completed call. -/
theorem sync_table_guard_leaves_flag_set :
    (SyncEngine.sync_table c1env c9busySt "books").1
      = Except.error SyncError.syncInProgress ∧
    (SyncEngine.sync_table c1env c9busySt "books").2.1.status.is_syncing = true := by
  exact ⟨by decide, by decide⟩

/-- Claim C9 (corrected).  When a call does NOT trip the guard, the flag
is cleared on every exit path: entering `sync_table` or
`sync_all_tables` with `is_syncing = false` leaves it false whether the
work succeeded or errored, and `trigger_data_pull` (which has no guard)
always returns with it false.  Only the guard-rejected early return
keeps the flag as it found it — set. -/
theorem engine_clears_syncing_flag :
    (∀ (env : EngineEnv) (st : EngineState) (tn : String),
      st.status.is_syncing = false →
      (SyncEngine.sync_table env st tn).2.1.status.is_syncing = false) ∧
    (∀ (env : EngineEnv) (st : EngineState),
      st.status.is_syncing = false →
      (SyncEngine.sync_all_tables env st).2.1.status.is_syncing = false) ∧
    (∀ (env : EngineEnv) (st : EngineState),
      (SyncEngine.trigger_data_pull env st).2.status.is_syncing = false) := by
  refine ⟨?_, ?_, ?_⟩
  · intro env st tn h
    simp only [SyncEngine.sync_table, h, Bool.false_eq_true, if_false]
    split <;> rfl
  · intro env st h
    simp only [SyncEngine.sync_all_tables, h, Bool.false_eq_true, if_false]
    split <;> rfl
  · intro env st
    simp only [SyncEngine.trigger_data_pull]
    split <;> rfl

/-- Witness for `engine_clears_syncing_flag` at the fresh engine
`c1st` under `c1env`. -/
theorem engine_clears_syncing_flag_witness :
    (SyncEngine.sync_table c1env c1st "books").2.1.status.is_syncing = false ∧
    (SyncEngine.sync_all_tables c1env c1st).2.1.status.is_syncing = false ∧
    (SyncEngine.trigger_data_pull c1env c1st).2.status.is_syncing = false := by
  exact ⟨engine_clears_syncing_flag.1 c1env c1st "books" rfl,
         engine_clears_syncing_flag.2.1 c1env c1st rfl,
         engine_clears_syncing_flag.2.2 c1env c1st⟩
